import Mathlib

/-!
# concat_s3_files: the multipart concatenation client

A shallow embedding of `s3_files/s3_client.go`.  The S3 service is an external
collaborator: it is modelled as an arbitrary state machine `S3 σ` whose five
operations take the request and the current store state and return the
response together with the next store state.  Every method of `S3Client`
is a function that threads the store state and returns, beside its Go
result, the chronological list of store calls it issued, each with the
response the store gave (`Event`).
-/

set_option autoImplicit false

namespace S3Files

/-! ## Go values -/

/-- A Go `error` value that is not nil.  `awsErr` stands for the values that
implement `awserr.Error` (with the text their `Error()` method returns),
`errorString` for every other error value, such as one built by `errors.New`. -/
inductive GoError where
  | awsErr (code message text : String)
  | errorString (text : String)
  deriving DecidableEq, Repr

/-- The text returned by the `Error()` method. -/
def GoError.Error : GoError → String
  | .awsErr _ _ text => text
  | .errorString text => text

/-- The type assertion `err.(awserr.Error)`. -/
def GoError.isAwsErr : GoError → Bool
  | .awsErr _ _ _ => true
  | .errorString _ => false

/-- The result of a store call that returns `(output, err)`. -/
inductive Outcome (α : Type) where
  | ok (output : α)
  | fail (err : GoError)
  deriving DecidableEq, Repr

/-- The package variable `ErrInvalidNumOfUploadFiles`. -/
def ErrInvalidNumOfUploadFiles : GoError :=
  .errorString "number of upload files should not be greater than 10000"

/-- The constant `s3.ErrCodeBucketAlreadyExists` of the AWS SDK. -/
def ErrCodeBucketAlreadyExists : String := "BucketAlreadyExists"

/-- The constant `s3.ErrCodeBucketAlreadyOwnedByYou` of the AWS SDK. -/
def ErrCodeBucketAlreadyOwnedByYou : String := "BucketAlreadyOwnedByYou"

/-! ## `url.QueryEscape` -/

/-- The UTF-8 bytes of one character (a Go string is its byte sequence). -/
def utf8Bytes (c : Char) : List Nat :=
  let v := c.toNat
  if v < 0x80 then [v]
  else if v < 0x800 then [0xC0 + v / 64, 0x80 + v % 64]
  else if v < 0x10000 then [0xE0 + v / 4096, 0x80 + v / 64 % 64, 0x80 + v % 64]
  else [0xF0 + v / 262144, 0x80 + v / 4096 % 64, 0x80 + v / 64 % 64, 0x80 + v % 64]

/-- The bytes of a Go string. -/
def goBytes (s : String) : List Nat :=
  s.data.flatMap utf8Bytes

/-- Go's `shouldEscape(c, encodeQueryComponent)`: only ASCII letters, digits
and `-`, `_`, `.`, `~` are left alone. -/
def shouldEscape (b : Nat) : Bool :=
  !((97 ≤ b && b ≤ 122) || (65 ≤ b && b ≤ 90) || (48 ≤ b && b ≤ 57)
    || b = 45 || b = 95 || b = 46 || b = 126)

/-- The digit `upperhex[n]` for `n < 16`. -/
def upperhex (n : Nat) : Char :=
  if n < 10 then Char.ofNat (48 + n) else Char.ofNat (55 + n)

/-- The escaped form of one byte: a space becomes `+`, a byte that must be
escaped becomes `%XX`, any other byte stands for itself. -/
def escapeByte (b : Nat) : List Char :=
  if b = 32 then ['+']
  else if shouldEscape b then ['%', upperhex (b / 16), upperhex (b % 16)]
  else [Char.ofNat b]

/-- Go's `url.QueryEscape`. -/
def QueryEscape (s : String) : String :=
  String.mk ((goBytes s).flatMap escapeByte)

/-! ## Requests and responses of the S3 API -/

/-- The `s3.CreateBucketInput` fields the client sets. -/
structure CreateBucketInput where
  Bucket : String
  deriving DecidableEq, Repr

/-- The `s3.CreateMultipartUploadInput` fields the client sets. -/
structure CreateMultipartUploadInput where
  Bucket : String
  Key : String
  ACL : String
  deriving DecidableEq, Repr

/-- The `s3.CreateMultipartUploadOutput` field the client reads; `UploadId` is
a `*string`. -/
structure CreateMultipartUploadOutput where
  UploadId : Option String
  deriving DecidableEq, Repr

/-- The `s3.UploadPartCopyInput` fields the client sets. -/
structure UploadPartCopyInput where
  Bucket : String
  CopySource : String
  PartNumber : Int
  Key : String
  UploadId : Option String
  deriving DecidableEq, Repr

/-- The `s3.CopyPartResult` field the client reads; `ETag` is a `*string`. -/
structure CopyPartResult where
  ETag : Option String
  deriving DecidableEq, Repr

/-- The `s3.UploadPartCopyOutput` field the client reads.  A successful call is
taken to carry a `CopyPartResult` (the client dereferences it unchecked). -/
structure UploadPartCopyOutput where
  CopyPartResult : CopyPartResult
  deriving DecidableEq, Repr

/-- The `s3.CompletedPart` structure. -/
structure CompletedPart where
  ETag : Option String
  PartNumber : Int
  deriving DecidableEq, Repr

/-- The `s3.CompletedMultipartUpload` structure. -/
structure CompletedMultipartUpload where
  Parts : List CompletedPart
  deriving DecidableEq, Repr

/-- The `s3.CompleteMultipartUploadInput` fields the client sets. -/
structure CompleteMultipartUploadInput where
  Bucket : String
  Key : String
  UploadId : Option String
  MultipartUpload : CompletedMultipartUpload
  deriving DecidableEq, Repr

/-- The `s3.DeleteObjectInput` fields the client sets. -/
structure DeleteObjectInput where
  Bucket : String
  Key : String
  deriving DecidableEq, Repr

/-- The part of the `*s3.S3` service client that `S3Client` calls, as a state
machine over the store states `σ`. -/
structure S3 (σ : Type) where
  CreateBucket : CreateBucketInput → σ → Option GoError × σ
  CreateMultipartUpload :
    CreateMultipartUploadInput → σ → Outcome CreateMultipartUploadOutput × σ
  UploadPartCopy : UploadPartCopyInput → σ → Outcome UploadPartCopyOutput × σ
  CompleteMultipartUpload : CompleteMultipartUploadInput → σ → Option GoError × σ
  DeleteObject : DeleteObjectInput → σ → Option GoError × σ

/-- One store call as the client issued it, with the response it received. -/
inductive Event where
  | createBucket (input : CreateBucketInput) (err : Option GoError)
  | createMultipartUpload (input : CreateMultipartUploadInput)
      (out : Outcome CreateMultipartUploadOutput)
  | uploadPartCopy (input : UploadPartCopyInput) (out : Outcome UploadPartCopyOutput)
  | completeMultipartUpload (input : CompleteMultipartUploadInput) (err : Option GoError)
  | deleteObject (input : DeleteObjectInput) (err : Option GoError)
  deriving DecidableEq, Repr

/-- The error of an outcome, `none` for a success. -/
def Outcome.err {α : Type} : Outcome α → Option GoError
  | .ok _ => none
  | .fail e => some e

/-- The error the store answered the call with, `none` when the call succeeded. -/
def Event.err : Event → Option GoError
  | .createBucket _ e => e
  | .createMultipartUpload _ o => o.err
  | .uploadPartCopy _ o => o.err
  | .completeMultipartUpload _ e => e
  | .deleteObject _ e => e

/-- The call is an initiate-multipart-upload. -/
def Event.isCreateMultipartUpload : Event → Bool
  | .createMultipartUpload _ _ => true
  | _ => false

/-- The call is a copy-part. -/
def Event.isUploadPartCopy : Event → Bool
  | .uploadPartCopy _ _ => true
  | _ => false

/-- The call is a complete-multipart-upload. -/
def Event.isCompleteMultipartUpload : Event → Bool
  | .completeMultipartUpload _ _ => true
  | _ => false

/-- The call is a delete-object. -/
def Event.isDeleteObject : Event → Bool
  | .deleteObject _ _ => true
  | _ => false

/-! ## The client -/

/-- The `S3Client` struct; its `S3Client` field is the `S3 σ` passed alongside. -/
structure S3Client where
  BucketName : String
  deriving DecidableEq, Repr

/-- What a method returning `error` leaves behind: the error (`none` is nil),
the store state, and the store calls issued, oldest first. -/
structure Run (σ : Type) where
  err : Option GoError
  st : σ
  log : List Event

/-- What `prepareConcatenationParts` leaves behind. -/
structure PartsRun (σ : Type) where
  parts : List CompletedPart
  err : Option GoError
  st : σ
  log : List Event

variable {σ : Type}

/-- `CreateBucket`: the error of the store call is returned only when it is an
`awserr.Error` whose text fails the (two-sided) sentinel comparison. -/
def CreateBucket (svc : S3 σ) (s3Client : S3Client) (s : σ) : Run σ :=
  let input : CreateBucketInput := { Bucket := s3Client.BucketName }
  match svc.CreateBucket input s with
  | (err, s1) =>
    let log := [Event.createBucket input err]
    match err with
    | some awsErr =>
      if awsErr.isAwsErr then
        if awsErr.Error = ErrCodeBucketAlreadyExists
            ∧ awsErr.Error = ErrCodeBucketAlreadyOwnedByYou then
          { err := none, st := s1, log := log }
        else
          { err := err, st := s1, log := log }
      else
        { err := none, st := s1, log := log }
    | none => { err := none, st := s1, log := log }

/-- `DeleteFile`. -/
def DeleteFile (svc : S3 σ) (s3Client : S3Client) (filePath : String) (s : σ) : Run σ :=
  let input : DeleteObjectInput := { Bucket := s3Client.BucketName, Key := filePath }
  match svc.DeleteObject input s with
  | (err, s1) => { err := err, st := s1, log := [Event.deleteObject input err] }

/-- `DeleteFiles`: the loop stops at the first delete that fails. -/
def DeleteFiles (svc : S3 σ) (s3Client : S3Client) : List String → σ → Run σ
  | [], s => { err := none, st := s, log := [] }
  | filePath :: rest, s =>
    let r := DeleteFile svc s3Client filePath s
    match r.err with
    | some err => { err := some err, st := r.st, log := r.log }
    | none =>
      let r2 := DeleteFiles svc s3Client rest r.st
      { err := r2.err, st := r2.st, log := r.log ++ r2.log }

/-- The `for i, path := range filePaths` loop of `prepareConcatenationParts`,
entered at index `i` with the parts collected so far. -/
def prepareLoop (svc : S3 σ) (s3Client : S3Client) (targetFilePath : String)
    (uploadID : Option String) :
    Nat → List String → List CompletedPart → σ → PartsRun σ
  | _, [], tagObjects, s => { parts := tagObjects, err := none, st := s, log := [] }
  | i, path :: rest, tagObjects, s =>
    let partNum := i + 1
    let uploadPartCopyInput : UploadPartCopyInput :=
      { Bucket := s3Client.BucketName
        CopySource := QueryEscape (s3Client.BucketName ++ "/" ++ path)
        PartNumber := Int.ofNat partNum
        Key := targetFilePath
        UploadId := uploadID }
    match svc.UploadPartCopy uploadPartCopyInput s with
    | (.fail err, s1) =>
      { parts := tagObjects, err := some err, st := s1
        log := [Event.uploadPartCopy uploadPartCopyInput (.fail err)] }
    | (.ok copyOutput, s1) =>
      let r := prepareLoop svc s3Client targetFilePath uploadID (i + 1) rest
        (tagObjects ++
          [{ ETag := copyOutput.CopyPartResult.ETag
             PartNumber := uploadPartCopyInput.PartNumber }]) s1
      { parts := r.parts, err := r.err, st := r.st
        log := Event.uploadPartCopy uploadPartCopyInput (.ok copyOutput) :: r.log }

/-- `prepareConcatenationParts`. -/
def prepareConcatenationParts (svc : S3 σ) (s3Client : S3Client) (targetFilePath : String)
    (filePaths : List String) (uploadID : Option String) (s : σ) : PartsRun σ :=
  if filePaths.length > 10000 then
    { parts := [], err := some ErrInvalidNumOfUploadFiles, st := s, log := [] }
  else
    prepareLoop svc s3Client targetFilePath uploadID 0 filePaths [] s

/-- `ConcatenateFiles`.  The error of `CompleteMultipartUpload` is assigned to
`err` and never read: the method goes on to `DeleteFiles` and returns its
result. -/
def ConcatenateFiles (svc : S3 σ) (s3Client : S3Client) (targetFilePath : String)
    (filePaths : List String) (s : σ) : Run σ :=
  let createInput : CreateMultipartUploadInput :=
    { Bucket := s3Client.BucketName, Key := targetFilePath, ACL := "public-read" }
  match svc.CreateMultipartUpload createInput s with
  | (.fail err, s1) =>
    { err := some err, st := s1, log := [Event.createMultipartUpload createInput (.fail err)] }
  | (.ok output, s1) =>
    let p := prepareConcatenationParts svc s3Client targetFilePath filePaths output.UploadId s1
    match p.err with
    | some err =>
      { err := some err, st := p.st
        log := Event.createMultipartUpload createInput (.ok output) :: p.log }
    | none =>
      let completeInput : CompleteMultipartUploadInput :=
        { Bucket := s3Client.BucketName
          Key := targetFilePath
          UploadId := output.UploadId
          MultipartUpload := { Parts := p.parts } }
      match svc.CompleteMultipartUpload completeInput p.st with
      | (cerr, s3) =>
        let d := DeleteFiles svc s3Client filePaths s3
        { err := d.err, st := d.st
          log := Event.createMultipartUpload createInput (.ok output) :: p.log
            ++ [Event.completeMultipartUpload completeInput cerr] ++ d.log }

/-! ## Vocabulary of the statements -/

/-- The copy-part request for the source key `path` at (0-based) index `k`:
part number `k + 1`, destination `targetFilePath` under `uploadID`. -/
def copyRequest (s3Client : S3Client) (targetFilePath : String) (uploadID : Option String)
    (k : Nat) (path : String) : UploadPartCopyInput :=
  { Bucket := s3Client.BucketName
    CopySource := QueryEscape (s3Client.BucketName ++ "/" ++ path)
    PartNumber := Int.ofNat (k + 1)
    Key := targetFilePath
    UploadId := uploadID }

/-- Successful copy-part calls for the keys `paths`, the first at index `i`,
answered in turn with `outs`. -/
def copyEvents (s3Client : S3Client) (targetFilePath : String) (uploadID : Option String)
    (i : Nat) (paths : List String) (outs : List UploadPartCopyOutput) : List Event :=
  ((paths.zip outs).enumFrom i).map fun x =>
    Event.uploadPartCopy (copyRequest s3Client targetFilePath uploadID x.1 x.2.1) (.ok x.2.2)

/-- The completed parts built from the copy-part answers `outs`, the first
numbered `i + 1`. -/
def manifestFrom (i : Nat) (outs : List UploadPartCopyOutput) : List CompletedPart :=
  (outs.enumFrom i).map fun x =>
    { ETag := x.2.CopyPartResult.ETag, PartNumber := Int.ofNat (x.1 + 1) }

/-- The initiate-multipart-upload request for `targetFilePath`. -/
def createRequest (s3Client : S3Client) (targetFilePath : String) :
    CreateMultipartUploadInput :=
  { Bucket := s3Client.BucketName, Key := targetFilePath, ACL := "public-read" }

/-- The complete-multipart-upload request with the manifest `parts`. -/
def completeRequest (s3Client : S3Client) (targetFilePath : String)
    (uploadID : Option String) (parts : List CompletedPart) : CompleteMultipartUploadInput :=
  { Bucket := s3Client.BucketName
    Key := targetFilePath
    UploadId := uploadID
    MultipartUpload := { Parts := parts } }

/-- The delete-object request for the key `path`. -/
def deleteRequest (s3Client : S3Client) (path : String) : DeleteObjectInput :=
  { Bucket := s3Client.BucketName, Key := path }

/-- Successful delete-object calls for the keys `paths`, in order. -/
def deleteEvents (s3Client : S3Client) (paths : List String) : List Event :=
  paths.map fun p => Event.deleteObject (deleteRequest s3Client p) none

/-! ## A scripted store, for concrete runs -/

/-- A store that answers its calls from a script: each call consumes the head
of the script, fails with the error found there, and succeeds with a canned
answer on `none` and once the script is exhausted. -/
def scriptedS3 : S3 (List (Option GoError)) where
  CreateBucket := fun _ s => (s.head?.join, s.tail)
  CreateMultipartUpload := fun _ s =>
    match s.head?.join with
    | some e => (.fail e, s.tail)
    | none => (.ok { UploadId := some "upload-1" }, s.tail)
  UploadPartCopy := fun input s =>
    match s.head?.join with
    | some e => (.fail e, s.tail)
    | none => (.ok { CopyPartResult := { ETag := some input.CopySource } }, s.tail)
  CompleteMultipartUpload := fun _ s => (s.head?.join, s.tail)
  DeleteObject := fun _ s => (s.head?.join, s.tail)

/-- The client of the concrete runs. -/
def testClient : S3Client := { BucketName := "test" }

/-- A store error used in the concrete runs. -/
def rejected : GoError := .awsErr "InternalError" "rejected" "InternalError: rejected"

/-! ## `url.QueryUnescape` -/

/-- The value of a hexadecimal digit (Go's `unhex`, with `ishex` as its domain). -/
def unhex (c : Char) : Option Nat :=
  let v := c.toNat
  if 48 ≤ v ∧ v ≤ 57 then some (v - 48)
  else if 65 ≤ v ∧ v ≤ 70 then some (v - 55)
  else if 97 ≤ v ∧ v ≤ 102 then some (v - 87)
  else none

/-- Where the reader of an escaped text stands: between escapes, after a `%`,
or after a `%` and its first digit. -/
inductive EscapeState where
  | plain
  | percent
  | percentHex (x : Nat)

/-- The bytes an escaped text stands for: `%XX` is the byte `XX`, `+` is a
space, any other character stands for itself; `none` on a malformed `%`. -/
def unescapeFrom : EscapeState → List Char → Option (List Nat)
  | .plain, [] => some []
  | .percent, [] => none
  | .percentHex _, [] => none
  | .plain, c :: rest =>
    if c = '%' then unescapeFrom .percent rest
    else if c = '+' then (unescapeFrom .plain rest).map fun r => 32 :: r
    else (unescapeFrom .plain rest).map fun r => c.toNat :: r
  | .percent, c :: rest =>
    match unhex c with
    | some x => unescapeFrom (.percentHex x) rest
    | none => none
  | .percentHex x, c :: rest =>
    match unhex c with
    | some y => (unescapeFrom .plain rest).map fun r => (16 * x + y) :: r
    | none => none

/-- The characters a UTF-8 byte sequence encodes.  `pending` continuation
bytes are still to come for the character whose bits read so far are `acc`;
the length of a sequence is read off its first byte. -/
def decodeUtf8From : Nat → Nat → List Nat → Option (List Char)
  | 0, _, [] => some []
  | _ + 1, _, [] => none
  | 0, _, b :: rest =>
    if b < 0x80 then (decodeUtf8From 0 0 rest).map fun r => Char.ofNat b :: r
    else if b < 0xE0 then decodeUtf8From 1 (b - 0xC0) rest
    else if b < 0xF0 then decodeUtf8From 2 (b - 0xE0) rest
    else decodeUtf8From 3 (b - 0xF0) rest
  | pending + 1, acc, b :: rest =>
    if pending = 0 then
      (decodeUtf8From 0 0 rest).map fun r => Char.ofNat (acc * 64 + (b - 0x80)) :: r
    else decodeUtf8From pending (acc * 64 + (b - 0x80)) rest

/-- Go's `url.QueryUnescape`, on texts whose bytes are UTF-8. -/
def QueryUnescape (s : String) : Option String :=
  ((unescapeFrom .plain s.data).bind (decodeUtf8From 0 0)).map String.mk

/-! ## A model of the object store -/

/-- A multipart upload session of the model store: the path of the object it
will create and the parts uploaded so far, by part number. -/
structure Upload where
  path : String
  parts : Int → Option (List UInt8)

/-- The state of the model store: the objects by path (`bucket/key`), the
open upload sessions by upload id, and the counter the upload ids come from. -/
structure StoreState where
  objects : String → Option (List UInt8)
  uploads : String → Option Upload
  next : Nat

/-- The path of the object `key` of `bucket`. -/
def objectPath (bucket key : String) : String :=
  bucket ++ "/" ++ key

/-- An error of the model store, named by its S3 error code. -/
def storeError (code : String) : GoError :=
  .awsErr code "" code

/-- The contents of the parts a manifest lists, in manifest order; `none`
when a listed part was never uploaded or is listed with another ETag. -/
def resolveParts (etag : List UInt8 → String) (parts : Int → Option (List UInt8)) :
    List CompletedPart → Option (List (List UInt8))
  | [] => some []
  | part :: rest =>
    match parts part.PartNumber with
    | none => none
    | some bytes =>
      if part.ETag = some (etag bytes) then
        (resolveParts etag parts rest).map fun r => bytes :: r
      else none

/-- The part numbers of the manifest are strictly ascending. -/
def ascendingParts : List CompletedPart → Bool
  | a :: b :: rest => decide (a.PartNumber < b.PartNumber) && ascendingParts (b :: rest)
  | _ => true

/-- Every part but the last has at least the minimum part size. -/
def partSizesOk (minPartSize : Nat) : List (List UInt8) → Bool
  | a :: b :: rest => decide (minPartSize ≤ a.length) && partSizesOk minPartSize (b :: rest)
  | _ => true

/-- The model store.  An initiate opens a session under a fresh upload id.  A
copy-part reads the object its (URL-escaped) copy source names and stores its
content as the numbered part of the session.  A completion checks the manifest
(not empty, part numbers strictly ascending, every part uploaded and listed
with its ETag, every part but the last of at least `minPartSize` bytes) and,
when the checks pass, creates the target from the contents of the listed parts
in manifest order and closes the session.  A delete removes the object.  A
failed call leaves the state as it was. -/
def modelS3 (minPartSize : Nat) (etag : List UInt8 → String) : S3 StoreState where
  CreateBucket := fun _ s => (none, s)
  CreateMultipartUpload := fun input s =>
    (.ok { UploadId := some ("upload-" ++ toString s.next) },
      { s with
        uploads := fun k =>
          if k = "upload-" ++ toString s.next then
            some { path := objectPath input.Bucket input.Key, parts := fun _ => none }
          else s.uploads k
        next := s.next + 1 })
  UploadPartCopy := fun input s =>
    match input.UploadId.bind s.uploads with
    | none => (.fail (storeError "NoSuchUpload"), s)
    | some up =>
      if up.path ≠ objectPath input.Bucket input.Key then
        (.fail (storeError "NoSuchUpload"), s)
      else if input.PartNumber < 1 ∨ 10000 < input.PartNumber then
        (.fail (storeError "InvalidArgument"), s)
      else
        match (QueryUnescape input.CopySource).bind s.objects with
        | none => (.fail (storeError "NoSuchKey"), s)
        | some bytes =>
          (.ok { CopyPartResult := { ETag := some (etag bytes) } },
            { s with
              uploads := fun k =>
                if some k = input.UploadId then
                  some { up with
                    parts := fun n => if n = input.PartNumber then some bytes else up.parts n }
                else s.uploads k })
  CompleteMultipartUpload := fun input s =>
    match input.UploadId.bind s.uploads with
    | none => (some (storeError "NoSuchUpload"), s)
    | some up =>
      if up.path ≠ objectPath input.Bucket input.Key then
        (some (storeError "NoSuchUpload"), s)
      else if input.MultipartUpload.Parts = [] then
        (some (storeError "MalformedXML"), s)
      else if ascendingParts input.MultipartUpload.Parts = false then
        (some (storeError "InvalidPartOrder"), s)
      else
        match resolveParts etag up.parts input.MultipartUpload.Parts with
        | none => (some (storeError "InvalidPart"), s)
        | some contents =>
          if partSizesOk minPartSize contents = false then
            (some (storeError "EntityTooSmall"), s)
          else
            (none,
              { s with
                objects := fun k => if k = up.path then some contents.flatten else s.objects k
                uploads := fun k => if some k = input.UploadId then none else s.uploads k })
  DeleteObject := fun input s =>
    (none,
      { s with
        objects := fun k =>
          if k = objectPath input.Bucket input.Key then none else s.objects k })

/-- The parts of a session after the contents `contents` were stored in turn
under the part numbers `i + 1`, `i + 2`, ... -/
def partsAfter (parts : Int → Option (List UInt8)) (i : Nat) :
    List (List UInt8) → Int → Option (List UInt8)
  | [] => parts
  | bytes :: rest =>
    partsAfter (fun n => if n = Int.ofNat (i + 1) then some bytes else parts n) (i + 1) rest

/-- The manifest that lists the contents `contents` under the part numbers
`i + 1`, `i + 2`, ..., each with its ETag. -/
def manifestOf (etag : List UInt8 → String) (i : Nat) : List (List UInt8) → List CompletedPart
  | [] => []
  | bytes :: rest =>
    { ETag := some (etag bytes), PartNumber := Int.ofNat (i + 1) } :: manifestOf etag (i + 1) rest

/-- The ETag of the concrete runs: the length of the content, in decimal. -/
def lengthTag (bytes : List UInt8) : String :=
  toString bytes.length

/-- The store of the concrete runs: bucket `test` holds `A` (five bytes `A`)
and `B` (one byte `B`), and no upload is open. -/
def twoObjects : StoreState where
  objects := fun k =>
    if k = "test/A" then some [65, 65, 65, 65, 65]
    else if k = "test/B" then some [66]
    else none
  uploads := fun _ => none
  next := 1

/-! ## Lemmas on the loops -/

theorem copyEvents_nil_left (s3Client : S3Client) (t : String) (u : Option String) (i : Nat)
    (outs : List UploadPartCopyOutput) : copyEvents s3Client t u i [] outs = [] := by
  simp [copyEvents]

theorem copyEvents_nil_right (s3Client : S3Client) (t : String) (u : Option String) (i : Nat)
    (paths : List String) : copyEvents s3Client t u i paths [] = [] := by
  simp [copyEvents]

theorem copyEvents_cons (s3Client : S3Client) (t : String) (u : Option String) (i : Nat)
    (p : String) (paths : List String) (o : UploadPartCopyOutput)
    (outs : List UploadPartCopyOutput) :
    copyEvents s3Client t u i (p :: paths) (o :: outs)
      = Event.uploadPartCopy (copyRequest s3Client t u i p) (.ok o)
        :: copyEvents s3Client t u (i + 1) paths outs := by
  simp [copyEvents, List.enumFrom_cons]

theorem manifestFrom_cons (i : Nat) (o : UploadPartCopyOutput)
    (outs : List UploadPartCopyOutput) :
    manifestFrom i (o :: outs)
      = { ETag := o.CopyPartResult.ETag, PartNumber := Int.ofNat (i + 1) }
        :: manifestFrom (i + 1) outs := by
  simp [manifestFrom, List.enumFrom_cons]

theorem prepareLoop_nil (svc : S3 σ) (s3Client : S3Client) (t : String) (u : Option String)
    (i : Nat) (tags : List CompletedPart) (s : σ) :
    prepareLoop svc s3Client t u i [] tags s
      = { parts := tags, err := none, st := s, log := [] } := rfl

theorem prepareLoop_fail (svc : S3 σ) (s3Client : S3Client) (t : String) (u : Option String)
    (i : Nat) (p : String) (rest : List String) (tags : List CompletedPart) (s s1 : σ)
    (e : GoError)
    (h : svc.UploadPartCopy (copyRequest s3Client t u i p) s = (.fail e, s1)) :
    prepareLoop svc s3Client t u i (p :: rest) tags s
      = { parts := tags, err := some e, st := s1
          log := [Event.uploadPartCopy (copyRequest s3Client t u i p) (.fail e)] } := by
  show (match svc.UploadPartCopy (copyRequest s3Client t u i p) s with
    | (.fail err, s1) => _
    | (.ok copyOutput, s1) => _) = _
  rw [h]
  rfl

theorem prepareLoop_ok (svc : S3 σ) (s3Client : S3Client) (t : String) (u : Option String)
    (i : Nat) (p : String) (rest : List String) (tags : List CompletedPart) (s s1 : σ)
    (o : UploadPartCopyOutput)
    (h : svc.UploadPartCopy (copyRequest s3Client t u i p) s = (.ok o, s1)) :
    prepareLoop svc s3Client t u i (p :: rest) tags s
      = { parts := (prepareLoop svc s3Client t u (i + 1) rest
            (tags ++ [{ ETag := o.CopyPartResult.ETag, PartNumber := Int.ofNat (i + 1) }])
            s1).parts
          err := (prepareLoop svc s3Client t u (i + 1) rest
            (tags ++ [{ ETag := o.CopyPartResult.ETag, PartNumber := Int.ofNat (i + 1) }])
            s1).err
          st := (prepareLoop svc s3Client t u (i + 1) rest
            (tags ++ [{ ETag := o.CopyPartResult.ETag, PartNumber := Int.ofNat (i + 1) }])
            s1).st
          log := Event.uploadPartCopy (copyRequest s3Client t u i p) (.ok o)
            :: (prepareLoop svc s3Client t u (i + 1) rest
            (tags ++ [{ ETag := o.CopyPartResult.ETag, PartNumber := Int.ofNat (i + 1) }])
            s1).log } := by
  show (match svc.UploadPartCopy (copyRequest s3Client t u i p) s with
    | (.fail err, s1) => _
    | (.ok copyOutput, s1) => _) = _
  rw [h]
  rfl

/-- The shape of every run of the copy loop: some prefix of the keys is
copied successfully, and either that prefix is the whole list and the loop
returns nil, or the next copy fails, ends the loop and its error is returned. -/
theorem prepareLoop_spec (svc : S3 σ) (s3Client : S3Client) (t : String) (u : Option String)
    (paths : List String) : ∀ (i : Nat) (tags : List CompletedPart) (s : σ),
    ∃ outs : List UploadPartCopyOutput,
      (prepareLoop svc s3Client t u i paths tags s).parts = tags ++ manifestFrom i outs ∧
      (((prepareLoop svc s3Client t u i paths tags s).err = none ∧
          outs.length = paths.length ∧
          (prepareLoop svc s3Client t u i paths tags s).log
            = copyEvents s3Client t u i paths outs) ∨
        (∃ e p, (prepareLoop svc s3Client t u i paths tags s).err = some e ∧
          paths[outs.length]? = some p ∧
          (prepareLoop svc s3Client t u i paths tags s).log
            = copyEvents s3Client t u i paths outs
              ++ [Event.uploadPartCopy (copyRequest s3Client t u (i + outs.length) p)
                    (.fail e)])) := by
  induction paths with
  | nil =>
    intro i tags s
    exact ⟨[], by simp [prepareLoop_nil, manifestFrom],
      Or.inl (by simp [prepareLoop_nil, copyEvents])⟩
  | cons p rest ih =>
    intro i tags s
    cases h : svc.UploadPartCopy (copyRequest s3Client t u i p) s with
    | mk o s1 =>
      cases o with
      | fail e =>
        rw [prepareLoop_fail svc s3Client t u i p rest tags s s1 e h]
        exact ⟨[], by simp [manifestFrom], Or.inr ⟨e, p, rfl, by simp,
          by simp [copyEvents_nil_right]⟩⟩
      | ok o =>
        obtain ⟨outs, hparts, hrest⟩ := ih (i + 1)
          (tags ++ [{ ETag := o.CopyPartResult.ETag, PartNumber := Int.ofNat (i + 1) }]) s1
        rw [prepareLoop_ok svc s3Client t u i p rest tags s s1 o h]
        refine ⟨o :: outs, ?_, ?_⟩
        · rw [manifestFrom_cons]
          simpa using hparts
        · rcases hrest with ⟨herr, hlen, hlog⟩ | ⟨e, q, herr, hq, hlog⟩
          · left
            refine ⟨herr, by simp [hlen], ?_⟩
            rw [copyEvents_cons]
            exact congrArg _ hlog
          · right
            refine ⟨e, q, herr, by simpa using hq, ?_⟩
            rw [copyEvents_cons]
            have hidx : i + (o :: outs).length = i + 1 + outs.length := by
              simp [Nat.add_assoc, Nat.add_comm 1]
            rw [hidx]
            exact congrArg _ hlog

theorem DeleteFiles_nil (svc : S3 σ) (s3Client : S3Client) (s : σ) :
    DeleteFiles svc s3Client [] s = { err := none, st := s, log := [] } := rfl

theorem DeleteFile_eq (svc : S3 σ) (s3Client : S3Client) (p : String) (s : σ) :
    DeleteFile svc s3Client p s
      = { err := (svc.DeleteObject (deleteRequest s3Client p) s).1
          st := (svc.DeleteObject (deleteRequest s3Client p) s).2
          log := [Event.deleteObject (deleteRequest s3Client p)
                    (svc.DeleteObject (deleteRequest s3Client p) s).1] } := rfl

theorem DeleteFiles_fail (svc : S3 σ) (s3Client : S3Client) (p : String) (rest : List String)
    (s s1 : σ) (e : GoError)
    (h : svc.DeleteObject (deleteRequest s3Client p) s = (some e, s1)) :
    DeleteFiles svc s3Client (p :: rest) s
      = { err := some e, st := s1
          log := [Event.deleteObject (deleteRequest s3Client p) (some e)] } := by
  show (match (DeleteFile svc s3Client p s).err with
    | some err => _
    | none => _) = _
  rw [DeleteFile_eq, h]

theorem DeleteFiles_ok (svc : S3 σ) (s3Client : S3Client) (p : String) (rest : List String)
    (s s1 : σ) (h : svc.DeleteObject (deleteRequest s3Client p) s = (none, s1)) :
    DeleteFiles svc s3Client (p :: rest) s
      = { err := (DeleteFiles svc s3Client rest s1).err
          st := (DeleteFiles svc s3Client rest s1).st
          log := Event.deleteObject (deleteRequest s3Client p) none
            :: (DeleteFiles svc s3Client rest s1).log } := by
  show (match (DeleteFile svc s3Client p s).err with
    | some err => _
    | none => _) = _
  rw [DeleteFile_eq, h]
  rfl

/-- The shape of every run of the delete loop: the keys are deleted in
order, up to and including the first one whose delete fails. -/
theorem DeleteFiles_spec (svc : S3 σ) (s3Client : S3Client) (paths : List String) :
    ∀ s : σ,
      ((DeleteFiles svc s3Client paths s).err = none ∧
        (DeleteFiles svc s3Client paths s).log = deleteEvents s3Client paths) ∨
      (∃ j p e, paths[j]? = some p ∧
        (DeleteFiles svc s3Client paths s).err = some e ∧
        (DeleteFiles svc s3Client paths s).log
          = deleteEvents s3Client (paths.take j)
            ++ [Event.deleteObject (deleteRequest s3Client p) (some e)]) := by
  induction paths with
  | nil =>
    intro s
    exact Or.inl ⟨rfl, rfl⟩
  | cons p rest ih =>
    intro s
    cases h : svc.DeleteObject (deleteRequest s3Client p) s with
    | mk err s1 =>
      cases err with
      | some e =>
        rw [DeleteFiles_fail svc s3Client p rest s s1 e h]
        exact Or.inr ⟨0, p, e, by simp, rfl, by simp [deleteEvents]⟩
      | none =>
        rw [DeleteFiles_ok svc s3Client p rest s s1 h]
        rcases ih s1 with ⟨herr, hlog⟩ | ⟨j, q, e, hq, herr, hlog⟩
        · exact Or.inl ⟨herr, by simp [hlog, deleteEvents]⟩
        · exact Or.inr ⟨j + 1, q, e, by simpa using hq, herr,
            by simp [hlog, deleteEvents]⟩

/-- The body of `ConcatenateFiles`, with its local names unfolded. -/
theorem ConcatenateFiles_eq (svc : S3 σ) (s3Client : S3Client) (t : String)
    (paths : List String) (s : σ) :
    ConcatenateFiles svc s3Client t paths s
    = (match svc.CreateMultipartUpload (createRequest s3Client t) s with
      | (.fail err, s1) =>
        { err := some err, st := s1
          log := [Event.createMultipartUpload (createRequest s3Client t) (.fail err)] }
      | (.ok output, s1) =>
        match (prepareConcatenationParts svc s3Client t paths output.UploadId s1).err with
        | some err =>
          { err := some err
            st := (prepareConcatenationParts svc s3Client t paths output.UploadId s1).st
            log := Event.createMultipartUpload (createRequest s3Client t) (.ok output)
              :: (prepareConcatenationParts svc s3Client t paths output.UploadId s1).log }
        | none =>
          { err := (DeleteFiles svc s3Client paths (svc.CompleteMultipartUpload
                (completeRequest s3Client t output.UploadId
                  (prepareConcatenationParts svc s3Client t paths output.UploadId s1).parts)
                (prepareConcatenationParts svc s3Client t paths
                  output.UploadId s1).st).2).err
            st := (DeleteFiles svc s3Client paths (svc.CompleteMultipartUpload
                (completeRequest s3Client t output.UploadId
                  (prepareConcatenationParts svc s3Client t paths output.UploadId s1).parts)
                (prepareConcatenationParts svc s3Client t paths
                  output.UploadId s1).st).2).st
            log := Event.createMultipartUpload (createRequest s3Client t) (.ok output)
              :: (prepareConcatenationParts svc s3Client t paths output.UploadId s1).log
              ++ [Event.completeMultipartUpload
                    (completeRequest s3Client t output.UploadId
                      (prepareConcatenationParts svc s3Client t paths
                        output.UploadId s1).parts)
                    (svc.CompleteMultipartUpload
                      (completeRequest s3Client t output.UploadId
                        (prepareConcatenationParts svc s3Client t paths
                          output.UploadId s1).parts)
                      (prepareConcatenationParts svc s3Client t paths
                        output.UploadId s1).st).1]
              ++ (DeleteFiles svc s3Client paths (svc.CompleteMultipartUpload
                (completeRequest s3Client t output.UploadId
                  (prepareConcatenationParts svc s3Client t paths output.UploadId s1).parts)
                (prepareConcatenationParts svc s3Client t paths
                  output.UploadId s1).st).2).log }) := rfl

/-- The five ways a run of `ConcatenateFiles` can go. -/
theorem ConcatenateFiles_cases (svc : S3 σ) (s3Client : S3Client) (t : String)
    (paths : List String) (s : σ) :
    (∃ e s1, svc.CreateMultipartUpload (createRequest s3Client t) s = (.fail e, s1) ∧
      (ConcatenateFiles svc s3Client t paths s).err = some e ∧
      (ConcatenateFiles svc s3Client t paths s).st = s1 ∧
      (ConcatenateFiles svc s3Client t paths s).log
        = [Event.createMultipartUpload (createRequest s3Client t) (.fail e)]) ∨
    (∃ out s1, svc.CreateMultipartUpload (createRequest s3Client t) s = (.ok out, s1) ∧
      10000 < paths.length ∧
      (ConcatenateFiles svc s3Client t paths s).err = some ErrInvalidNumOfUploadFiles ∧
      (ConcatenateFiles svc s3Client t paths s).st = s1 ∧
      (ConcatenateFiles svc s3Client t paths s).log
        = [Event.createMultipartUpload (createRequest s3Client t) (.ok out)]) ∨
    (∃ out s1 outs e p,
      svc.CreateMultipartUpload (createRequest s3Client t) s = (.ok out, s1) ∧
      paths.length ≤ 10000 ∧ paths[outs.length]? = some p ∧
      (ConcatenateFiles svc s3Client t paths s).err = some e ∧
      (ConcatenateFiles svc s3Client t paths s).log
        = Event.createMultipartUpload (createRequest s3Client t) (.ok out)
          :: copyEvents s3Client t out.UploadId 0 paths outs
          ++ [Event.uploadPartCopy (copyRequest s3Client t out.UploadId outs.length p)
                (.fail e)]) ∨
    (∃ out s1 outs cerr,
      svc.CreateMultipartUpload (createRequest s3Client t) s = (.ok out, s1) ∧
      paths.length ≤ 10000 ∧ outs.length = paths.length ∧
      (ConcatenateFiles svc s3Client t paths s).err = none ∧
      (ConcatenateFiles svc s3Client t paths s).log
        = Event.createMultipartUpload (createRequest s3Client t) (.ok out)
          :: copyEvents s3Client t out.UploadId 0 paths outs
          ++ [Event.completeMultipartUpload
                (completeRequest s3Client t out.UploadId (manifestFrom 0 outs)) cerr]
          ++ deleteEvents s3Client paths) ∨
    (∃ out s1 outs cerr j p e,
      svc.CreateMultipartUpload (createRequest s3Client t) s = (.ok out, s1) ∧
      paths.length ≤ 10000 ∧ outs.length = paths.length ∧ paths[j]? = some p ∧
      (ConcatenateFiles svc s3Client t paths s).err = some e ∧
      (ConcatenateFiles svc s3Client t paths s).log
        = Event.createMultipartUpload (createRequest s3Client t) (.ok out)
          :: copyEvents s3Client t out.UploadId 0 paths outs
          ++ [Event.completeMultipartUpload
                (completeRequest s3Client t out.UploadId (manifestFrom 0 outs)) cerr]
          ++ deleteEvents s3Client (paths.take j)
          ++ [Event.deleteObject (deleteRequest s3Client p) (some e)]) := by
  cases h : svc.CreateMultipartUpload (createRequest s3Client t) s with
  | mk o s1 =>
    rw [ConcatenateFiles_eq, h]
    cases o with
    | fail e => exact Or.inl ⟨e, s1, rfl, rfl, rfl, rfl⟩
    | ok out =>
      right
      by_cases hlen : 10000 < paths.length
      · left
        have hp : prepareConcatenationParts svc s3Client t paths out.UploadId s1
            = { parts := [], err := some ErrInvalidNumOfUploadFiles, st := s1, log := [] } := by
          simp [prepareConcatenationParts, hlen]
        refine ⟨out, s1, rfl, hlen, ?_, ?_, ?_⟩ <;> simp only [hp]
      · right
        have hp : prepareConcatenationParts svc s3Client t paths out.UploadId s1
            = prepareLoop svc s3Client t out.UploadId 0 paths [] s1 := by
          simp [prepareConcatenationParts, hlen]
        have hle : paths.length ≤ 10000 := Nat.le_of_not_lt hlen
        obtain ⟨outs, hparts, hrest⟩ :=
          prepareLoop_spec svc s3Client t out.UploadId paths 0 [] s1
        simp only [hp]
        rcases hrest with ⟨herr, hol, hlog⟩ | ⟨e, p, herr, hp2, hlog⟩
        · right
          simp only [herr, hlog, hparts, List.nil_append]
          rcases DeleteFiles_spec svc s3Client paths (svc.CompleteMultipartUpload
              (completeRequest s3Client t out.UploadId (manifestFrom 0 outs))
              (prepareLoop svc s3Client t out.UploadId 0 paths [] s1).st).2
            with ⟨hderr, hdlog⟩ | ⟨j, q, e, hq, hderr, hdlog⟩
          · left
            exact ⟨out, s1, outs, _, rfl, hle, hol, hderr, by rw [hdlog]⟩
          · right
            refine ⟨out, s1, outs, (svc.CompleteMultipartUpload
              (completeRequest s3Client t out.UploadId (manifestFrom 0 outs))
              (prepareLoop svc s3Client t out.UploadId 0 paths [] s1).st).1,
              j, q, e, rfl, hle, hol, hq, hderr, ?_⟩
            rw [hdlog]
            simp only [List.append_assoc, List.cons_append]
        · left
          simp only [herr, hlog]
          exact ⟨out, s1, outs, e, p, rfl, hle, hp2, rfl, by simp⟩

/-! ## Lemmas on the vocabulary -/

theorem copyEvents_length (s3Client : S3Client) (t : String) (u : Option String) (i : Nat)
    (paths : List String) (outs : List UploadPartCopyOutput) :
    (copyEvents s3Client t u i paths outs).length = min paths.length outs.length := by
  simp [copyEvents]

theorem manifestFrom_length (i : Nat) (outs : List UploadPartCopyOutput) :
    (manifestFrom i outs).length = outs.length := by
  simp [manifestFrom]

theorem mem_copyEvents (s3Client : S3Client) (t : String) (u : Option String)
    (paths : List String) : ∀ (outs : List UploadPartCopyOutput) (i : Nat) (ev : Event),
    ev ∈ copyEvents s3Client t u i paths outs →
      ∃ k p o, i ≤ k ∧ k < i + outs.length ∧
        ev = Event.uploadPartCopy (copyRequest s3Client t u k p) (.ok o) := by
  induction paths with
  | nil =>
    intro outs i ev h
    simp [copyEvents_nil_left] at h
  | cons p rest ih =>
    intro outs i ev h
    cases outs with
    | nil => simp [copyEvents_nil_right] at h
    | cons o outs =>
      rw [copyEvents_cons, List.mem_cons] at h
      rcases h with h | h
      · exact ⟨i, p, o, Nat.le_refl i, by simp, h⟩
      · obtain ⟨k, q, o2, h1, h2, h3⟩ := ih outs (i + 1) ev h
        exact ⟨k, q, o2, by omega, by simp; omega, h3⟩

theorem copyEvents_getElem? (s3Client : S3Client) (t : String) (u : Option String)
    (paths : List String) : ∀ (outs : List UploadPartCopyOutput) (i k : Nat) (p : String)
    (o : UploadPartCopyOutput), paths[k]? = some p → outs[k]? = some o →
      (copyEvents s3Client t u i paths outs)[k]?
        = some (Event.uploadPartCopy (copyRequest s3Client t u (i + k) p) (.ok o)) := by
  induction paths with
  | nil =>
    intro outs i k p o hp
    simp at hp
  | cons q rest ih =>
    intro outs i k p o hp ho
    cases outs with
    | nil => simp at ho
    | cons o2 outs =>
      rw [copyEvents_cons]
      cases k with
      | zero =>
        simp only [List.getElem?_cons_zero, Option.some.injEq] at hp ho
        simp [hp, ho]
      | succ k =>
        simp only [List.getElem?_cons_succ] at hp ho
        rw [List.getElem?_cons_succ, ih outs (i + 1) k p o hp ho]
        have hidx : i + 1 + k = i + (k + 1) := by omega
        rw [hidx]

theorem manifestFrom_getElem? : ∀ (outs : List UploadPartCopyOutput) (i k : Nat)
    (o : UploadPartCopyOutput), outs[k]? = some o →
      (manifestFrom i outs)[k]?
        = some { ETag := o.CopyPartResult.ETag, PartNumber := Int.ofNat (i + k + 1) } := by
  intro outs
  induction outs with
  | nil =>
    intro i k o ho
    simp at ho
  | cons o2 outs ih =>
    intro i k o ho
    rw [manifestFrom_cons]
    cases k with
    | zero =>
      simp only [List.getElem?_cons_zero, Option.some.injEq] at ho
      simp [ho]
    | succ k =>
      simp only [List.getElem?_cons_succ] at ho
      rw [List.getElem?_cons_succ, ih (i + 1) k o ho]
      have hidx : i + 1 + k + 1 = i + (k + 1) + 1 := by omega
      rw [hidx]

theorem manifestFrom_partNumbers : ∀ (outs : List UploadPartCopyOutput) (i : Nat),
    (manifestFrom i outs).map (fun part => part.PartNumber)
      = (List.range outs.length).map (fun k => Int.ofNat (i + k + 1)) := by
  intro outs
  induction outs with
  | nil =>
    intro i
    simp [manifestFrom]
  | cons o outs ih =>
    intro i
    rw [manifestFrom_cons, List.map_cons, ih (i + 1), List.length_cons, List.range_succ_eq_map,
      List.map_cons, List.map_map]
    refine congrArg₂ _ rfl (List.map_congr_left ?_)
    intro k _
    show Int.ofNat (i + 1 + k + 1) = Int.ofNat (i + (k + 1) + 1)
    have hidx : i + 1 + k + 1 = i + (k + 1) + 1 := by omega
    rw [hidx]

theorem mem_deleteEvents (s3Client : S3Client) (paths : List String) (ev : Event)
    (h : ev ∈ deleteEvents s3Client paths) :
    ∃ p, p ∈ paths ∧ ev = Event.deleteObject (deleteRequest s3Client p) none := by
  simp only [deleteEvents, List.mem_map] at h
  obtain ⟨p, hp, rfl⟩ := h
  exact ⟨p, hp, rfl⟩

theorem filter_isDeleteObject_copyEvents (s3Client : S3Client) (t : String)
    (u : Option String) (i : Nat) (paths : List String) (outs : List UploadPartCopyOutput) :
    (copyEvents s3Client t u i paths outs).filter Event.isDeleteObject = [] := by
  rw [List.filter_eq_nil_iff]
  intro ev hev
  obtain ⟨k, p, o, _, _, rfl⟩ := mem_copyEvents s3Client t u paths outs i ev hev
  simp [Event.isDeleteObject]

theorem filter_isDeleteObject_deleteEvents (s3Client : S3Client) (paths : List String) :
    (deleteEvents s3Client paths).filter Event.isDeleteObject = deleteEvents s3Client paths := by
  rw [List.filter_eq_self]
  intro ev hev
  obtain ⟨p, _, rfl⟩ := mem_deleteEvents s3Client paths ev hev
  rfl

theorem filter_isComplete_copyEvents (s3Client : S3Client) (t : String)
    (u : Option String) (i : Nat) (paths : List String) (outs : List UploadPartCopyOutput) :
    (copyEvents s3Client t u i paths outs).filter Event.isCompleteMultipartUpload = [] := by
  rw [List.filter_eq_nil_iff]
  intro ev hev
  obtain ⟨k, p, o, _, _, rfl⟩ := mem_copyEvents s3Client t u paths outs i ev hev
  simp [Event.isCompleteMultipartUpload]

theorem filter_isComplete_deleteEvents (s3Client : S3Client) (paths : List String) :
    (deleteEvents s3Client paths).filter Event.isCompleteMultipartUpload = [] := by
  rw [List.filter_eq_nil_iff]
  intro ev hev
  obtain ⟨p, _, rfl⟩ := mem_deleteEvents s3Client paths ev hev
  simp [Event.isCompleteMultipartUpload]

theorem deleteEvents_getElem? (s3Client : S3Client) (paths : List String) (j : Nat) :
    (deleteEvents s3Client paths)[j]?
      = paths[j]?.map fun p => Event.deleteObject (deleteRequest s3Client p) none := by
  simp [deleteEvents]

/-! ## Lemmas on escaping -/

theorem unhex_upperhex : ∀ n, n < 16 → unhex (upperhex n) = some n := by
  decide

set_option maxRecDepth 100000 in
theorem literal_byte : ∀ b, b < 128 → b ≠ 32 → shouldEscape b = false →
    Char.ofNat b ≠ '%' ∧ Char.ofNat b ≠ '+' ∧ (Char.ofNat b).toNat = b := by
  decide

theorem shouldEscape_of_ge (b : Nat) (h : 128 ≤ b) : shouldEscape b = true := by
  simp only [shouldEscape, Bool.not_eq_true', Bool.or_eq_false_iff, Bool.and_eq_false_imp,
    decide_eq_true_eq, decide_eq_false_iff_not]
  omega

theorem unescapeFrom_escapeByte (b : Nat) (hb : b < 256) (rest : List Char) :
    unescapeFrom .plain (escapeByte b ++ rest)
      = (unescapeFrom .plain rest).map fun r => b :: r := by
  unfold escapeByte
  by_cases h32 : b = 32
  · subst h32
    simp [unescapeFrom]
  · rw [if_neg h32]
    cases hesc : shouldEscape b with
    | true =>
      have h1 := unhex_upperhex (b / 16) (by omega)
      have h2 := unhex_upperhex (b % 16) (by omega)
      have hb2 : 16 * (b / 16) + b % 16 = b := Nat.div_add_mod b 16
      simp [unescapeFrom, h1, h2, hb2]
    | false =>
      have hlt : b < 128 := by
        rcases Nat.lt_or_ge b 128 with h | h
        · exact h
        · rw [shouldEscape_of_ge b h] at hesc
          simp at hesc
      obtain ⟨hp, hq, hn⟩ := literal_byte b hlt h32 hesc
      simp [unescapeFrom, hp, hq, hn]

theorem unescapeFrom_flatMap : ∀ bs : List Nat, (∀ x ∈ bs, x < 256) →
    unescapeFrom .plain (bs.flatMap escapeByte) = some bs := by
  intro bs
  induction bs with
  | nil =>
    intro _
    simp [unescapeFrom]
  | cons b rest ih =>
    intro h
    rw [List.flatMap_cons, unescapeFrom_escapeByte b (h b (by simp)),
      ih (fun x hx => h x (by simp [hx]))]
    rfl

theorem char_toNat_lt (c : Char) : c.toNat < 0x110000 := by
  have h := c.valid
  simp only [UInt32.isValidChar, Nat.isValidChar] at h
  show c.val.toNat < 0x110000
  omega

theorem utf8Bytes_lt (c : Char) : ∀ x ∈ utf8Bytes c, x < 256 := by
  have hc := char_toNat_lt c
  intro x hx
  simp only [utf8Bytes] at hx
  split_ifs at hx <;> simp at hx <;> omega

theorem decodeUtf8From_utf8Bytes (c : Char) (rest : List Nat) :
    decodeUtf8From 0 0 (utf8Bytes c ++ rest)
      = (decodeUtf8From 0 0 rest).map fun r => c :: r := by
  have hc := char_toNat_lt c
  simp only [utf8Bytes]
  split_ifs with h1 h2 h3
  · simp only [List.cons_append, List.nil_append, decodeUtf8From, if_pos h1, Char.ofNat_toNat]
    rfl
  · have e : (0xC0 + c.toNat / 64 - 0xC0) * 64 + (0x80 + c.toNat % 64 - 0x80) = c.toNat := by
      omega
    simp only [List.cons_append, List.nil_append, decodeUtf8From]
    rw [if_neg (by omega), if_pos (by omega)]
    simp only [decodeUtf8From, if_true, e, Char.ofNat_toNat]
    rfl
  · have e : ((0xE0 + c.toNat / 4096 - 0xE0) * 64 + (0x80 + c.toNat / 64 % 64 - 0x80)) * 64
        + (0x80 + c.toNat % 64 - 0x80) = c.toNat := by
      omega
    simp only [List.cons_append, List.nil_append, decodeUtf8From]
    rw [if_neg (by omega), if_neg (by omega), if_pos (by omega)]
    simp only [decodeUtf8From, if_true, e, Char.ofNat_toNat, Nat.succ_ne_zero, if_false]
    rfl
  · have e : (((0xF0 + c.toNat / 262144 - 0xF0) * 64 + (0x80 + c.toNat / 4096 % 64 - 0x80)) * 64
        + (0x80 + c.toNat / 64 % 64 - 0x80)) * 64 + (0x80 + c.toNat % 64 - 0x80)
        = c.toNat := by
      omega
    simp only [List.cons_append, List.nil_append, decodeUtf8From]
    rw [if_neg (by omega), if_neg (by omega), if_neg (by omega)]
    simp only [decodeUtf8From, if_true, e, Char.ofNat_toNat, Nat.succ_ne_zero, if_false]
    rfl

theorem decodeUtf8From_flatMap : ∀ cs : List Char,
    decodeUtf8From 0 0 (cs.flatMap utf8Bytes) = some cs := by
  intro cs
  induction cs with
  | nil => simp [decodeUtf8From]
  | cons c rest ih =>
    rw [List.flatMap_cons, decodeUtf8From_utf8Bytes, ih]
    rfl

/-- `QueryUnescape` undoes `QueryEscape`. -/
theorem QueryUnescape_QueryEscape (s : String) : QueryUnescape (QueryEscape s) = some s := by
  have hlt : ∀ x ∈ goBytes s, x < 256 := by
    intro x hx
    simp only [goBytes, List.mem_flatMap] at hx
    obtain ⟨c, _, hc⟩ := hx
    exact utf8Bytes_lt c x hc
  simp only [QueryUnescape, QueryEscape, unescapeFrom_flatMap (goBytes s) hlt, Option.some_bind]
  simp only [goBytes, decodeUtf8From_flatMap, Option.map_some']

theorem objectPath_injective (bucket k1 k2 : String)
    (h : objectPath bucket k1 = objectPath bucket k2) : k1 = k2 := by
  have hd := congrArg String.data h
  simp only [objectPath, String.data_append, List.append_assoc] at hd
  have := List.append_cancel_left (List.append_cancel_left hd)
  exact String.ext this

/-! ## Lemmas on the model store -/

theorem modelS3_copy_ok (m : Nat) (etag : List UInt8 → String) (s3Client : S3Client)
    (t id : String) (i : Nat) (p : String) (s s1 : StoreState) (o : UploadPartCopyOutput)
    (up : Upload) (hup : s.uploads id = some up)
    (h : (modelS3 m etag).UploadPartCopy (copyRequest s3Client t (some id) i p) s
      = (.ok o, s1)) :
    ∃ bytes, s.objects (objectPath s3Client.BucketName p) = some bytes ∧
      o = { CopyPartResult := { ETag := some (etag bytes) } } ∧
      s1.objects = s.objects ∧
      s1.uploads id = some { path := up.path
                             parts := fun n =>
                               if n = Int.ofNat (i + 1) then some bytes else up.parts n } := by
  have hsrc : (QueryUnescape (QueryEscape (s3Client.BucketName ++ "/" ++ p))).bind s.objects
      = s.objects (objectPath s3Client.BucketName p) := by
    rw [QueryUnescape_QueryEscape]
    rfl
  simp only [modelS3, copyRequest, Option.some_bind, hup, hsrc] at h
  split_ifs at h with h1 h2
  · simp at h
  · simp at h
  · cases hobj : s.objects (objectPath s3Client.BucketName p) with
    | none =>
      rw [hobj] at h
      simp at h
    | some bytes =>
      rw [hobj] at h
      simp only [Prod.mk.injEq, Outcome.ok.injEq] at h
      obtain ⟨ho, hs⟩ := h
      subst hs
      exact ⟨bytes, rfl, ho.symm, rfl, by simp⟩

theorem partsAfter_le : ∀ (contents : List (List UInt8)) (parts : Int → Option (List UInt8))
    (i : Nat) (n : Int), n ≤ Int.ofNat i → partsAfter parts i contents n = parts n := by
  intro contents
  induction contents with
  | nil =>
    intro parts i n _
    rfl
  | cons bytes rest ih =>
    intro parts i n hn
    have hn1 : n ≤ Int.ofNat (i + 1) := Int.le_trans hn (Int.ofNat_le.mpr (Nat.le_succ i))
    have hne : n ≠ Int.ofNat (i + 1) := by
      intro h
      rw [h] at hn
      have := Int.ofNat_le.mp hn
      omega
    show partsAfter _ (i + 1) rest n = parts n
    rw [ih _ (i + 1) n hn1, if_neg hne]

theorem resolveParts_partsAfter (etag : List UInt8 → String) :
    ∀ (contents : List (List UInt8)) (parts : Int → Option (List UInt8)) (i : Nat),
      resolveParts etag (partsAfter parts i contents) (manifestOf etag i contents)
        = some contents := by
  intro contents
  induction contents with
  | nil =>
    intro parts i
    rfl
  | cons bytes rest ih =>
    intro parts i
    have hpart : partsAfter parts i (bytes :: rest) (Int.ofNat (i + 1)) = some bytes := by
      show partsAfter _ (i + 1) rest (Int.ofNat (i + 1)) = some bytes
      rw [partsAfter_le rest _ (i + 1) _ (Int.le_refl _), if_pos rfl]
    have hrest : resolveParts etag (partsAfter parts i (bytes :: rest))
        (manifestOf etag (i + 1) rest) = some rest :=
      ih (fun n => if n = Int.ofNat (i + 1) then some bytes else parts n) (i + 1)
    show resolveParts etag (partsAfter parts i (bytes :: rest))
      ({ ETag := some (etag bytes), PartNumber := Int.ofNat (i + 1) }
        :: manifestOf etag (i + 1) rest) = some (bytes :: rest)
    simp only [resolveParts, hpart, hrest, if_true, Option.map_some']

/-- The copy loop on the model store, when it returns nil: every source key
names an object, the objects are left as they were, the session holds their
contents under consecutive part numbers, and the parts list them in order. -/
theorem prepareLoop_model (m : Nat) (etag : List UInt8 → String) (s3Client : S3Client)
    (t id : String) (paths : List String) :
    ∀ (i : Nat) (tags : List CompletedPart) (s : StoreState) (up : Upload),
      s.uploads id = some up →
      (prepareLoop (modelS3 m etag) s3Client t (some id) i paths tags s).err = none →
      ∃ contents : List (List UInt8),
        List.Forall₂ (fun p bytes => s.objects (objectPath s3Client.BucketName p) = some bytes)
          paths contents ∧
        (prepareLoop (modelS3 m etag) s3Client t (some id) i paths tags s).st.objects
          = s.objects ∧
        (prepareLoop (modelS3 m etag) s3Client t (some id) i paths tags s).st.uploads id
          = some { path := up.path, parts := partsAfter up.parts i contents } ∧
        (prepareLoop (modelS3 m etag) s3Client t (some id) i paths tags s).parts
          = tags ++ manifestOf etag i contents := by
  induction paths with
  | nil =>
    intro i tags s up hup _
    exact ⟨[], List.Forall₂.nil, rfl, hup, by simp [prepareLoop_nil, manifestOf]⟩
  | cons p rest ih =>
    intro i tags s up hup herr
    cases h : (modelS3 m etag).UploadPartCopy (copyRequest s3Client t (some id) i p) s with
    | mk o s1 =>
      cases o with
      | fail e =>
        rw [prepareLoop_fail _ s3Client t (some id) i p rest tags s s1 e h] at herr
        simp at herr
      | ok o =>
        obtain ⟨bytes, hobj, ho, hobjs, hup1⟩ :=
          modelS3_copy_ok m etag s3Client t id i p s s1 o up hup h
        rw [prepareLoop_ok _ s3Client t (some id) i p rest tags s s1 o h] at herr ⊢
        obtain ⟨contents, hall, hst, hups, hparts⟩ := ih (i + 1) _ s1 _ hup1 herr
        refine ⟨bytes :: contents, List.Forall₂.cons hobj ?_, ?_, ?_, ?_⟩
        · rw [hobjs] at hall
          exact hall
        · exact hst.trans hobjs
        · exact hups
        · show (prepareLoop _ s3Client t (some id) (i + 1) rest _ s1).parts = _
          rw [hparts, ho]
          simp [manifestOf]

theorem modelS3_complete_ok (m : Nat) (etag : List UInt8 → String) (s3Client : S3Client)
    (t id : String) (parts : List CompletedPart) (s : StoreState) (up : Upload)
    (hup : s.uploads id = some up)
    (h : ((modelS3 m etag).CompleteMultipartUpload
      (completeRequest s3Client t (some id) parts) s).1 = none) :
    ∃ contents, resolveParts etag up.parts parts = some contents ∧
      up.path = objectPath s3Client.BucketName t ∧
      ((modelS3 m etag).CompleteMultipartUpload
        (completeRequest s3Client t (some id) parts) s).2.objects
        = fun k => if k = up.path then some contents.flatten else s.objects k := by
  simp only [modelS3, completeRequest, Option.some_bind, hup] at h ⊢
  split_ifs at h ⊢ with h1 h2 h3
  cases hres : resolveParts etag up.parts parts with
  | none =>
    rw [hres] at h
    simp at h
  | some contents =>
    rw [hres] at h
    simp only at h ⊢
    split_ifs at h ⊢ with h4
    exact ⟨contents, rfl, by simpa using h1, rfl⟩

/-- The delete loop on the model store: it returns nil and removes exactly
the objects of the keys it is given. -/
theorem DeleteFiles_model (m : Nat) (etag : List UInt8 → String) (s3Client : S3Client)
    (paths : List String) : ∀ s : StoreState,
    (DeleteFiles (modelS3 m etag) s3Client paths s).err = none ∧
    ∀ k, (DeleteFiles (modelS3 m etag) s3Client paths s).st.objects k
      = if k ∈ paths.map (objectPath s3Client.BucketName) then none else s.objects k := by
  induction paths with
  | nil =>
    intro s
    exact ⟨rfl, fun k => by simp [DeleteFiles_nil]⟩
  | cons p rest ih =>
    intro s
    have h : (modelS3 m etag).DeleteObject (deleteRequest s3Client p) s
        = (none, { objects := fun k =>
                     if k = objectPath s3Client.BucketName p then none else s.objects k
                   uploads := s.uploads
                   next := s.next }) := rfl
    rw [DeleteFiles_ok _ s3Client p rest s _ h]
    obtain ⟨herr, hobjs⟩ := ih { objects := fun k =>
                                   if k = objectPath s3Client.BucketName p then none
                                   else s.objects k
                                 uploads := s.uploads
                                 next := s.next }
    refine ⟨herr, fun k => ?_⟩
    show (DeleteFiles (modelS3 m etag) s3Client rest
      { objects := fun k => if k = objectPath s3Client.BucketName p then none else s.objects k
        uploads := s.uploads
        next := s.next }).st.objects k = _
    rw [hobjs k]
    by_cases hk : k = objectPath s3Client.BucketName p
    · simp [hk]
    · by_cases hk2 : k ∈ rest.map (objectPath s3Client.BucketName)
      · simp [hk2]
      · simp [hk, hk2]

/-! ## The claims -/

/-- C6: when the initiate-multipart-upload call fails, `ConcatenateFiles`
returns that error at once and the initiate is the only store call of the run:
no part is copied, nothing is completed, nothing is deleted, and the store is
left in the state the failed initiate call itself answered with. -/
theorem C6_initiate_failure_is_returned (svc : S3 σ) (s3Client : S3Client) (t : String)
    (paths : List String) (s s1 : σ) (e : GoError)
    (h : svc.CreateMultipartUpload (createRequest s3Client t) s = (.fail e, s1)) :
    (ConcatenateFiles svc s3Client t paths s).err = some e ∧
    (ConcatenateFiles svc s3Client t paths s).log
      = [Event.createMultipartUpload (createRequest s3Client t) (.fail e)] ∧
    (ConcatenateFiles svc s3Client t paths s).st = s1 := by
  rcases ConcatenateFiles_cases svc s3Client t paths s with
    ⟨e2, s2, h2, herr, hst, hlog⟩ | ⟨out, s2, h2, _⟩ | ⟨out, s2, _, _, _, h2, _⟩ |
    ⟨out, s2, _, _, h2, _⟩ | ⟨out, s2, _, _, _, _, _, h2, _⟩
  · rw [h] at h2
    simp only [Prod.mk.injEq, Outcome.fail.injEq] at h2
    obtain ⟨rfl, rfl⟩ := h2
    exact ⟨herr, hlog, hst⟩
  all_goals
    rw [h] at h2
    simp at h2

theorem C6_initiate_failure_is_returned_witness :
    scriptedS3.CreateMultipartUpload (createRequest testClient "merged") [some rejected]
      = (.fail rejected, []) ∧
    (ConcatenateFiles scriptedS3 testClient "merged" ["a", "b"] [some rejected]).err
      = some rejected ∧
    (ConcatenateFiles scriptedS3 testClient "merged" ["a", "b"] [some rejected]).log
      = [Event.createMultipartUpload (createRequest testClient "merged") (.fail rejected)] ∧
    (ConcatenateFiles scriptedS3 testClient "merged" ["a", "b"] [some rejected]).st = [] :=
  ⟨rfl, C6_initiate_failure_is_returned scriptedS3 testClient "merged" ["a", "b"]
    [some rejected] [] rejected rfl⟩

/-- C3 (as the code has it): with more than 10000 source keys `ConcatenateFiles`
still issues the initiate-multipart-upload call first.  When that call succeeds
the run fails with `ErrInvalidNumOfUploadFiles` and the initiate is its only
store call (no part is copied, nothing is completed, nothing is deleted); when
it fails, its error is returned and it is again the only call. -/
theorem C3_too_many_parts_after_initiate (svc : S3 σ) (s3Client : S3Client) (t : String)
    (paths : List String) (s : σ) (h : 10000 < paths.length) :
    (∀ out s1, svc.CreateMultipartUpload (createRequest s3Client t) s = (.ok out, s1) →
      (ConcatenateFiles svc s3Client t paths s).err = some ErrInvalidNumOfUploadFiles ∧
      (ConcatenateFiles svc s3Client t paths s).log
        = [Event.createMultipartUpload (createRequest s3Client t) (.ok out)] ∧
      (ConcatenateFiles svc s3Client t paths s).st = s1) ∧
    (∀ e s1, svc.CreateMultipartUpload (createRequest s3Client t) s = (.fail e, s1) →
      (ConcatenateFiles svc s3Client t paths s).err = some e ∧
      (ConcatenateFiles svc s3Client t paths s).log
        = [Event.createMultipartUpload (createRequest s3Client t) (.fail e)] ∧
      (ConcatenateFiles svc s3Client t paths s).st = s1) := by
  rcases ConcatenateFiles_cases svc s3Client t paths s with
    ⟨e2, s2, h2, herr, hst, hlog⟩ | ⟨out2, s2, h2, _, herr, hst, hlog⟩ |
    ⟨_, _, _, _, _, _, hle, _⟩ | ⟨_, _, _, _, _, hle, _⟩ | ⟨_, _, _, _, _, _, _, _, hle, _⟩
  · refine ⟨fun out s1 h1 => ?_, fun e s1 h1 => ?_⟩
    · rw [h2] at h1
      simp at h1
    · rw [h2] at h1
      simp only [Prod.mk.injEq, Outcome.fail.injEq] at h1
      obtain ⟨rfl, rfl⟩ := h1
      exact ⟨herr, hlog, hst⟩
  · refine ⟨fun out s1 h1 => ?_, fun e s1 h1 => ?_⟩
    · rw [h2] at h1
      simp only [Prod.mk.injEq, Outcome.ok.injEq] at h1
      obtain ⟨rfl, rfl⟩ := h1
      exact ⟨herr, hlog, hst⟩
    · rw [h2] at h1
      simp at h1
  all_goals omega

theorem C3_too_many_parts_after_initiate_witness :
    10000 < (List.replicate 10001 "part").length ∧
    (ConcatenateFiles scriptedS3 testClient "merged" (List.replicate 10001 "part") []).err
      = some ErrInvalidNumOfUploadFiles ∧
    (ConcatenateFiles scriptedS3 testClient "merged" (List.replicate 10001 "part") []).log
      = [Event.createMultipartUpload (createRequest testClient "merged")
          (.ok { UploadId := some "upload-1" })] ∧
    (ConcatenateFiles scriptedS3 testClient "merged" (List.replicate 10001 "part") []).st
      = [] :=
  ⟨by rw [List.length_replicate]; omega,
    (C3_too_many_parts_after_initiate scriptedS3 testClient "merged"
      (List.replicate 10001 "part") [] (by rw [List.length_replicate]; omega)).1
      { UploadId := some "upload-1" } [] rfl⟩

/-- C3 counterexample: with 10001 source keys and a store that accepts every
call, the run does issue a store call: the multipart session is initiated. -/
theorem C3_counterexample :
    10000 < (List.replicate 10001 "part").length ∧
    (ConcatenateFiles scriptedS3 testClient "merged" (List.replicate 10001 "part") []).log
      ≠ [] ∧
    ((ConcatenateFiles scriptedS3 testClient "merged" (List.replicate 10001 "part") []).log.any
      Event.isCreateMultipartUpload) = true := by
  have hlen : 10000 < (List.replicate 10001 "part").length := by
    rw [List.length_replicate]
    omega
  rcases ConcatenateFiles_cases scriptedS3 testClient "merged"
      (List.replicate 10001 "part") [] with
    ⟨e2, s2, h2, _⟩ | ⟨out2, s2, h2, _, herr, hst, hlog⟩ |
    ⟨_, _, _, _, _, _, hle, _⟩ | ⟨_, _, _, _, _, hle, _⟩ | ⟨_, _, _, _, _, _, _, _, hle, _⟩
  · exact absurd h2 (by simp [scriptedS3])
  · rw [hlog]
    exact ⟨hlen, by simp, by simp [Event.isCreateMultipartUpload]⟩
  all_goals omega

/-- C10: in `CreateBucket` the branch for an already existing bucket is never
taken: every store error that is an `awserr.Error` is returned as it is,
whatever its text, and `CreateBucket` returns nil exactly when the store call
returned no `awserr.Error` (no error at all, or an error of another type). -/
theorem C10_already_exists_branch_unreachable (svc : S3 σ) (s3Client : S3Client) (s : σ) :
    (∀ e, (svc.CreateBucket { Bucket := s3Client.BucketName } s).1 = some e →
      e.isAwsErr = true → (CreateBucket svc s3Client s).err = some e) ∧
    ((CreateBucket svc s3Client s).err = none ↔
      ∀ e, (svc.CreateBucket { Bucket := s3Client.BucketName } s).1 = some e →
        e.isAwsErr = false) := by
  have hne : ∀ x : String,
      ¬ (x = ErrCodeBucketAlreadyExists ∧ x = ErrCodeBucketAlreadyOwnedByYou) := by
    rintro x ⟨rfl, h⟩
    exact absurd h (by decide)
  cases h : svc.CreateBucket { Bucket := s3Client.BucketName } s with
  | mk err s1 =>
    cases err with
    | none => simp [CreateBucket, h]
    | some e =>
      cases haws : e.isAwsErr with
      | true => simp [CreateBucket, h, haws, hne]
      | false => simp [CreateBucket, h, haws]

/-- C7: with at most 10000 source keys and every store call of the run
succeeding, the calls of `ConcatenateFiles` are exactly: one initiate for the
target; one copy-part per source key, in order, each with the upload id the
initiate returned and the target as destination; one completion with that
upload id; one delete-object per source key, in order.  The result is nil. -/
theorem C7_call_sequence_on_success (svc : S3 σ) (s3Client : S3Client) (t : String)
    (paths : List String) (s : σ) (hlen : paths.length ≤ 10000)
    (hok : ∀ ev ∈ (ConcatenateFiles svc s3Client t paths s).log, ev.err = none) :
    (ConcatenateFiles svc s3Client t paths s).err = none ∧
    ∃ out outs, outs.length = paths.length ∧
      (ConcatenateFiles svc s3Client t paths s).log
        = Event.createMultipartUpload (createRequest s3Client t) (.ok out)
          :: copyEvents s3Client t out.UploadId 0 paths outs
          ++ [Event.completeMultipartUpload
                (completeRequest s3Client t out.UploadId (manifestFrom 0 outs)) none]
          ++ deleteEvents s3Client paths := by
  rcases ConcatenateFiles_cases svc s3Client t paths s with
    ⟨e, s1, _, _, _, hlog⟩ | ⟨out, s1, _, hgt, _⟩ | ⟨out, s1, outs, e, p, _, _, _, _, hlog⟩ |
    ⟨out, s1, outs, cerr, _, _, hol, herr, hlog⟩ |
    ⟨out, s1, outs, cerr, j, p, e, _, _, _, _, _, hlog⟩
  · have h := hok (Event.createMultipartUpload (createRequest s3Client t) (.fail e))
      (by rw [hlog]; simp)
    simp [Event.err, Outcome.err] at h
  · omega
  · have h := hok (Event.uploadPartCopy (copyRequest s3Client t out.UploadId outs.length p)
      (.fail e)) (by rw [hlog]; simp)
    simp [Event.err, Outcome.err] at h
  · have h := hok (Event.completeMultipartUpload
      (completeRequest s3Client t out.UploadId (manifestFrom 0 outs)) cerr)
      (by rw [hlog]; simp)
    simp only [Event.err] at h
    subst h
    exact ⟨herr, out, outs, hol, hlog⟩
  · have h := hok (Event.deleteObject (deleteRequest s3Client p) (some e))
      (by rw [hlog]; simp)
    simp [Event.err] at h

theorem C7_call_sequence_on_success_witness :
    ["a", "b"].length ≤ 10000 ∧
    (∀ ev ∈ (ConcatenateFiles scriptedS3 testClient "merged" ["a", "b"] []).log,
      ev.err = none) ∧
    (ConcatenateFiles scriptedS3 testClient "merged" ["a", "b"] []).err = none ∧
    ∃ out outs, outs.length = ["a", "b"].length ∧
      (ConcatenateFiles scriptedS3 testClient "merged" ["a", "b"] []).log
        = Event.createMultipartUpload (createRequest testClient "merged") (.ok out)
          :: copyEvents testClient "merged" out.UploadId 0 ["a", "b"] outs
          ++ [Event.completeMultipartUpload
                (completeRequest testClient "merged" out.UploadId (manifestFrom 0 outs)) none]
          ++ deleteEvents testClient ["a", "b"] :=
  ⟨by decide, by decide,
    C7_call_sequence_on_success scriptedS3 testClient "merged" ["a", "b"] []
      (by decide) (by decide)⟩

/-- C5: when the copy-part call for index `i` (the one numbered `i + 1`) is
answered with an error, `ConcatenateFiles` returns that error; the run is the
successful initiate, the successful copies for the indices before `i`, and
that failed copy, which is the last call: no copy for a later index, no
completion and no delete-object is issued. -/
theorem C5_copy_failure_stops_the_run (svc : S3 σ) (s3Client : S3Client) (t : String)
    (paths : List String) (s : σ) (i : Nat) (input : UploadPartCopyInput) (e : GoError)
    (hnum : input.PartNumber = Int.ofNat (i + 1))
    (hfail : Event.uploadPartCopy input (.fail e)
      ∈ (ConcatenateFiles svc s3Client t paths s).log) :
    (ConcatenateFiles svc s3Client t paths s).err = some e ∧
    (∃ out outs p, outs.length = i ∧ paths[i]? = some p ∧
      input = copyRequest s3Client t out.UploadId i p ∧
      (ConcatenateFiles svc s3Client t paths s).log
        = Event.createMultipartUpload (createRequest s3Client t) (.ok out)
          :: copyEvents s3Client t out.UploadId 0 paths outs
          ++ [Event.uploadPartCopy input (.fail e)]) ∧
    (∀ ev ∈ (ConcatenateFiles svc s3Client t paths s).log,
      ev.isCompleteMultipartUpload = false ∧ ev.isDeleteObject = false) ∧
    (∀ input2 out2, Event.uploadPartCopy input2 out2
      ∈ (ConcatenateFiles svc s3Client t paths s).log →
        input2.PartNumber ≤ Int.ofNat (i + 1)) := by
  rcases ConcatenateFiles_cases svc s3Client t paths s with
    ⟨e2, s1, _, _, _, hlog⟩ | ⟨out, s1, _, _, _, _, hlog⟩ |
    ⟨out, s1, outs, e2, p, _, _, hp, herr, hlog⟩ |
    ⟨out, s1, outs, cerr, _, _, _, _, hlog⟩ |
    ⟨out, s1, outs, cerr, j, p, e2, _, _, _, _, _, hlog⟩
  · rw [hlog] at hfail
    simp at hfail
  · rw [hlog] at hfail
    simp at hfail
  · have hmem := hfail
    rw [hlog] at hmem
    simp only [List.cons_append, List.mem_cons, List.mem_append, List.not_mem_nil,
      or_false, reduceCtorEq, false_or] at hmem
    rcases hmem with hmem | hmem
    · obtain ⟨k, q, o, _, _, hev⟩ :=
        mem_copyEvents s3Client t out.UploadId paths outs 0 _ hmem
      simp at hev
    · simp only [Event.uploadPartCopy.injEq, Outcome.fail.injEq] at hmem
      obtain ⟨hin, he⟩ := hmem
      subst he
      have hi : outs.length = i := by
        rw [hin] at hnum
        simp only [copyRequest] at hnum
        have := Int.ofNat.inj hnum
        omega
      subst hi
      refine ⟨herr, ⟨out, outs, p, rfl, hp, hin, ?_⟩, ?_, ?_⟩
      · rw [hlog, hin]
      · intro ev hev
        rw [hlog] at hev
        simp only [List.cons_append, List.mem_cons, List.mem_append, List.not_mem_nil,
          or_false] at hev
        rcases hev with rfl | hev | rfl
        · exact ⟨rfl, rfl⟩
        · obtain ⟨k, q, o, _, _, rfl⟩ :=
            mem_copyEvents s3Client t out.UploadId paths outs 0 ev hev
          exact ⟨rfl, rfl⟩
        · exact ⟨rfl, rfl⟩
      · intro input2 out2 hev
        rw [hlog] at hev
        simp only [List.cons_append, List.mem_cons, List.mem_append, List.not_mem_nil,
          or_false, reduceCtorEq, false_or] at hev
        rcases hev with hev | hev
        · obtain ⟨k, q, o, _, hk, hev2⟩ :=
            mem_copyEvents s3Client t out.UploadId paths outs 0 _ hev
          simp only [Event.uploadPartCopy.injEq] at hev2
          rw [hev2.1]
          simp only [copyRequest]
          exact Int.ofNat_le.mpr (by omega)
        · simp only [Event.uploadPartCopy.injEq] at hev
          rw [hev.1]
          simp only [copyRequest]
          exact Int.le_refl _
  · rw [hlog] at hfail
    simp only [List.cons_append, List.mem_cons, List.mem_append, List.not_mem_nil,
      reduceCtorEq, false_or, List.append_assoc, or_false] at hfail
    rcases hfail with hmem | hmem
    · obtain ⟨k, q, o, _, _, hev⟩ :=
        mem_copyEvents s3Client t out.UploadId paths outs 0 _ hmem
      simp at hev
    · obtain ⟨q, _, hev⟩ := mem_deleteEvents s3Client paths _ hmem
      simp at hev
  · rw [hlog] at hfail
    simp only [List.cons_append, List.mem_cons, List.mem_append, List.not_mem_nil,
      reduceCtorEq, false_or, List.append_assoc, or_false] at hfail
    rcases hfail with hmem | hmem
    · obtain ⟨k, q, o, _, _, hev⟩ :=
        mem_copyEvents s3Client t out.UploadId paths outs 0 _ hmem
      simp at hev
    · obtain ⟨q, _, hev⟩ := mem_deleteEvents s3Client (paths.take j) _ hmem
      simp at hev

theorem C5_copy_failure_stops_the_run_witness :
    (copyRequest testClient "merged" (some "upload-1") 1 "b").PartNumber = Int.ofNat (1 + 1) ∧
    Event.uploadPartCopy (copyRequest testClient "merged" (some "upload-1") 1 "b")
        (.fail rejected)
      ∈ (ConcatenateFiles scriptedS3 testClient "merged" ["a", "b", "c"]
          [none, none, some rejected]).log ∧
    (ConcatenateFiles scriptedS3 testClient "merged" ["a", "b", "c"]
      [none, none, some rejected]).err = some rejected ∧
    (∀ ev ∈ (ConcatenateFiles scriptedS3 testClient "merged" ["a", "b", "c"]
        [none, none, some rejected]).log,
      ev.isCompleteMultipartUpload = false ∧ ev.isDeleteObject = false) :=
  ⟨by decide, by decide,
    (C5_copy_failure_stops_the_run scriptedS3 testClient "merged" ["a", "b", "c"]
      [none, none, some rejected] 1
      (copyRequest testClient "merged" (some "upload-1") 1 "b") rejected
      (by decide) (by decide)).1,
    (C5_copy_failure_stops_the_run scriptedS3 testClient "merged" ["a", "b", "c"]
      [none, none, some rejected] 1
      (copyRequest testClient "merged" (some "upload-1") 1 "b") rejected
      (by decide) (by decide)).2.2.1⟩

/-- C9: when the completion call succeeded and the `j`-th delete-object call
of the run (counting from 0) is answered with an error, `ConcatenateFiles`
returns exactly that error; the run is the successful initiate, one
successful copy per source key, the successful completion, and then the
deletes of `sourceKeys[0..j]` in order, the failed one being the last call:
no key after index `j` is deleted. -/
theorem C9_delete_failure_is_returned (svc : S3 σ) (s3Client : S3Client) (t : String)
    (paths : List String) (s : σ) (j : Nat) (input : DeleteObjectInput) (e : GoError)
    (hcomplete : ∀ ev ∈ (ConcatenateFiles svc s3Client t paths s).log,
      ev.isCompleteMultipartUpload = true → ev.err = none)
    (hfail : ((ConcatenateFiles svc s3Client t paths s).log.filter Event.isDeleteObject)[j]?
      = some (Event.deleteObject input (some e))) :
    (ConcatenateFiles svc s3Client t paths s).err = some e ∧
    ∃ out outs p, outs.length = paths.length ∧ paths[j]? = some p ∧
      input = deleteRequest s3Client p ∧
      (ConcatenateFiles svc s3Client t paths s).log
        = Event.createMultipartUpload (createRequest s3Client t) (.ok out)
          :: copyEvents s3Client t out.UploadId 0 paths outs
          ++ [Event.completeMultipartUpload
                (completeRequest s3Client t out.UploadId (manifestFrom 0 outs)) none]
          ++ deleteEvents s3Client (paths.take j)
          ++ [Event.deleteObject input (some e)] := by
  rcases ConcatenateFiles_cases svc s3Client t paths s with
    ⟨e2, s1, _, _, _, hlog⟩ | ⟨out, s1, _, _, _, _, hlog⟩ |
    ⟨out, s1, outs, e2, p, _, _, hp, herr, hlog⟩ |
    ⟨out, s1, outs, cerr, _, _, _, _, hlog⟩ |
    ⟨out, s1, outs, cerr, k, p, e2, _, _, hol, hp, herr, hlog⟩
  · rw [hlog] at hfail
    simp [Event.isDeleteObject] at hfail
  · rw [hlog] at hfail
    simp [Event.isDeleteObject] at hfail
  · rw [hlog] at hfail
    simp [Event.isDeleteObject, filter_isDeleteObject_copyEvents] at hfail
  · rw [hlog] at hfail
    simp only [List.cons_append, List.filter_cons, Event.isDeleteObject, List.filter_append,
      filter_isDeleteObject_copyEvents, filter_isDeleteObject_deleteEvents, List.filter_nil,
      List.nil_append, Bool.false_eq_true, if_false, deleteEvents_getElem?] at hfail
    cases hq : paths[j]? with
    | none => simp [hq] at hfail
    | some q => simp [hq] at hfail
  · have hc : cerr = none :=
      hcomplete (Event.completeMultipartUpload
        (completeRequest s3Client t out.UploadId (manifestFrom 0 outs)) cerr)
        (by rw [hlog]; simp) rfl
    subst hc
    have hk : k < paths.length := by
      rcases Nat.lt_or_ge k paths.length with h | h
      · exact h
      · rw [List.getElem?_eq_none h] at hp
        simp at hp
    have hfilter : (ConcatenateFiles svc s3Client t paths s).log.filter Event.isDeleteObject
        = deleteEvents s3Client (paths.take k)
          ++ [Event.deleteObject (deleteRequest s3Client p) (some e2)] := by
      rw [hlog]
      simp [List.filter_cons, Event.isDeleteObject, List.filter_append,
        filter_isDeleteObject_copyEvents, filter_isDeleteObject_deleteEvents]
    have hlenk : (deleteEvents s3Client (paths.take k)).length = k := by
      simp [deleteEvents, List.length_take]
      omega
    rw [hfilter] at hfail
    rcases Nat.lt_trichotomy j k with hjk | hjk | hjk
    · rw [List.getElem?_append_left (by omega), deleteEvents_getElem?] at hfail
      cases hq : (paths.take k)[j]? with
      | none => simp [hq] at hfail
      | some q => simp [hq] at hfail
    · subst hjk
      rw [List.getElem?_append_right (by omega), hlenk] at hfail
      simp only [Nat.sub_self, List.getElem?_cons_zero, Option.some.injEq,
        Event.deleteObject.injEq] at hfail
      obtain ⟨hin, he⟩ := hfail
      subst he
      refine ⟨herr, out, outs, p, hol, hp, hin.symm, ?_⟩
      rw [hlog, hin]
    · rw [List.getElem?_append_right (by omega), hlenk] at hfail
      have : j - k = (j - k - 1) + 1 := by omega
      rw [this] at hfail
      simp at hfail

theorem C9_delete_failure_is_returned_witness :
    (∀ ev ∈ (ConcatenateFiles scriptedS3 testClient "merged" ["a", "b", "c"]
        [none, none, none, none, none, none, some rejected]).log,
      ev.isCompleteMultipartUpload = true → ev.err = none) ∧
    ((ConcatenateFiles scriptedS3 testClient "merged" ["a", "b", "c"]
        [none, none, none, none, none, none, some rejected]).log.filter
          Event.isDeleteObject)[1]?
      = some (Event.deleteObject (deleteRequest testClient "b") (some rejected)) ∧
    (ConcatenateFiles scriptedS3 testClient "merged" ["a", "b", "c"]
        [none, none, none, none, none, none, some rejected]).err = some rejected :=
  ⟨by decide, by decide,
    (C9_delete_failure_is_returned scriptedS3 testClient "merged" ["a", "b", "c"]
      [none, none, none, none, none, none, some rejected] 1
      (deleteRequest testClient "b") rejected (by decide) (by decide)).1⟩

/-- What `prepareConcatenationParts` does with at most 10000 keys when none of
its copy-part calls fails: it returns nil, its calls are one successful copy
per key and its parts are built from their answers. -/
theorem prepareConcatenationParts_all_ok (svc : S3 σ) (s3Client : S3Client) (t : String)
    (paths : List String) (u : Option String) (s : σ) (hlen : paths.length ≤ 10000)
    (hok : ∀ ev ∈ (prepareConcatenationParts svc s3Client t paths u s).log, ev.err = none) :
    ∃ outs : List UploadPartCopyOutput, outs.length = paths.length ∧
      (prepareConcatenationParts svc s3Client t paths u s).err = none ∧
      (prepareConcatenationParts svc s3Client t paths u s).parts = manifestFrom 0 outs ∧
      (prepareConcatenationParts svc s3Client t paths u s).log
        = copyEvents s3Client t u 0 paths outs := by
  have hp : prepareConcatenationParts svc s3Client t paths u s
      = prepareLoop svc s3Client t u 0 paths [] s := by
    simp [prepareConcatenationParts, Nat.not_lt.mpr hlen]
  rw [hp] at hok ⊢
  obtain ⟨outs, hparts, hrest⟩ := prepareLoop_spec svc s3Client t u paths 0 [] s
  rcases hrest with ⟨herr, hol, hlog⟩ | ⟨e, p, _, _, hlog⟩
  · exact ⟨outs, hol, herr, by simpa using hparts, hlog⟩
  · have h := hok (Event.uploadPartCopy (copyRequest s3Client t u (0 + outs.length) p)
      (.fail e)) (by rw [hlog]; simp)
    simp [Event.err, Outcome.err] at h

/-- C8: provided no copy-part call fails, `prepareConcatenationParts` returns
`ErrInvalidNumOfUploadFiles` exactly when it is given more than 10000 paths;
in that case it returns no parts and issues no call; and exactly 10000 paths
are accepted, the last of the 10000 parts being numbered 10000. -/
theorem C8_part_count_guard (svc : S3 σ) (s3Client : S3Client) (t : String)
    (paths : List String) (u : Option String) (s : σ)
    (hok : ∀ ev ∈ (prepareConcatenationParts svc s3Client t paths u s).log, ev.err = none) :
    ((prepareConcatenationParts svc s3Client t paths u s).err
        = some ErrInvalidNumOfUploadFiles ↔ 10000 < paths.length) ∧
    (10000 < paths.length →
      (prepareConcatenationParts svc s3Client t paths u s).parts = [] ∧
      (prepareConcatenationParts svc s3Client t paths u s).log = [] ∧
      (prepareConcatenationParts svc s3Client t paths u s).st = s) ∧
    (paths.length = 10000 →
      (prepareConcatenationParts svc s3Client t paths u s).err = none ∧
      (prepareConcatenationParts svc s3Client t paths u s).parts.length = 10000 ∧
      (prepareConcatenationParts svc s3Client t paths u s).parts.getLast?.map
        (fun part => part.PartNumber) = some 10000) := by
  by_cases hlen : 10000 < paths.length
  · have hp : prepareConcatenationParts svc s3Client t paths u s
        = { parts := [], err := some ErrInvalidNumOfUploadFiles, st := s, log := [] } := by
      simp [prepareConcatenationParts, hlen]
    rw [hp]
    exact ⟨⟨fun _ => hlen, fun _ => rfl⟩, fun _ => ⟨rfl, rfl, rfl⟩, fun h => by omega⟩
  · obtain ⟨outs, hol, herr, hparts, _⟩ :=
      prepareConcatenationParts_all_ok svc s3Client t paths u s (Nat.le_of_not_lt hlen) hok
    refine ⟨⟨fun h => ?_, fun h => absurd h hlen⟩, fun h => absurd h hlen, fun h => ?_⟩
    · rw [herr] at h
      simp at h
    · have hlast : outs.length - 1 < outs.length := by omega
      have ho : outs[outs.length - 1]? = some (outs[outs.length - 1]) :=
        List.getElem?_eq_getElem hlast
      refine ⟨herr, by rw [hparts, manifestFrom_length]; omega, ?_⟩
      rw [hparts, List.getLast?_eq_getElem?, manifestFrom_length,
        manifestFrom_getElem? outs 0 (outs.length - 1) _ ho]
      have hnum : 0 + (outs.length - 1) + 1 = 10000 := by omega
      simp only [Option.map_some', hnum]
      rfl

theorem C8_part_count_guard_witness :
    (∀ ev ∈ (prepareConcatenationParts scriptedS3 testClient "merged" ["a", "b"]
        (some "upload-1") []).log, ev.err = none) ∧
    ((prepareConcatenationParts scriptedS3 testClient "merged" ["a", "b"]
        (some "upload-1") []).err = some ErrInvalidNumOfUploadFiles
      ↔ 10000 < ["a", "b"].length) :=
  ⟨by decide,
    (C8_part_count_guard scriptedS3 testClient "merged" ["a", "b"] (some "upload-1") []
      (by decide)).1⟩

/-- C4: with at most 10000 source keys and no failing copy-part call,
`prepareConcatenationParts` returns nil and exactly one part per key; the call
at position `k` is the copy of `sourceKeys[k]` with part number `k + 1`, and
the part at position `k` has part number `k + 1` and the ETag that call
returned; so the part numbers are `1, ..., n` in ascending order.  The
completion call of `ConcatenateFiles` is issued once, with exactly this list
as its manifest. -/
theorem C4_manifest_is_ordered_parts (svc : S3 σ) (s3Client : S3Client) (t : String)
    (paths : List String) (u : Option String) (s : σ) (hlen : paths.length ≤ 10000)
    (hok : ∀ ev ∈ (prepareConcatenationParts svc s3Client t paths u s).log, ev.err = none) :
    (prepareConcatenationParts svc s3Client t paths u s).err = none ∧
    (prepareConcatenationParts svc s3Client t paths u s).parts.length = paths.length ∧
    (prepareConcatenationParts svc s3Client t paths u s).log.length = paths.length ∧
    (∀ k p, paths[k]? = some p → ∃ o,
      (prepareConcatenationParts svc s3Client t paths u s).log[k]?
        = some (Event.uploadPartCopy (copyRequest s3Client t u k p) (.ok o)) ∧
      (prepareConcatenationParts svc s3Client t paths u s).parts[k]?
        = some { ETag := o.CopyPartResult.ETag, PartNumber := Int.ofNat (k + 1) }) ∧
    (prepareConcatenationParts svc s3Client t paths u s).parts.map (fun part => part.PartNumber)
      = (List.range paths.length).map (fun k => Int.ofNat (k + 1)) ∧
    (∀ s0 out, svc.CreateMultipartUpload (createRequest s3Client t) s0 = (.ok out, s) →
      out.UploadId = u →
      ∃ cerr, (ConcatenateFiles svc s3Client t paths s0).log.filter
          Event.isCompleteMultipartUpload
        = [Event.completeMultipartUpload (completeRequest s3Client t u
            (prepareConcatenationParts svc s3Client t paths u s).parts) cerr]) := by
  obtain ⟨outs, hol, herr, hparts, hlog⟩ :=
    prepareConcatenationParts_all_ok svc s3Client t paths u s hlen hok
  refine ⟨herr, by rw [hparts, manifestFrom_length, hol],
    by rw [hlog, copyEvents_length, hol, Nat.min_self], ?_, ?_, ?_⟩
  · intro k p hp
    have hk : k < outs.length := by
      rcases Nat.lt_or_ge k paths.length with h | h
      · omega
      · rw [List.getElem?_eq_none h] at hp
        simp at hp
    have ho : outs[k]? = some (outs[k]) := List.getElem?_eq_getElem hk
    refine ⟨outs[k], ?_, ?_⟩
    · rw [hlog, copyEvents_getElem? s3Client t u paths outs 0 k p _ hp ho, Nat.zero_add]
    · rw [hparts, manifestFrom_getElem? outs 0 k _ ho, Nat.zero_add]
  · rw [hparts, manifestFrom_partNumbers, hol]
    simp
  · intro s0 out hinit hu
    subst hu
    rw [ConcatenateFiles_eq, hinit]
    simp only [herr, hlog]
    refine ⟨(svc.CompleteMultipartUpload
      (completeRequest s3Client t out.UploadId
        (prepareConcatenationParts svc s3Client t paths out.UploadId s).parts)
      (prepareConcatenationParts svc s3Client t paths out.UploadId s).st).1, ?_⟩
    rcases DeleteFiles_spec svc s3Client paths (svc.CompleteMultipartUpload
        (completeRequest s3Client t out.UploadId
          (prepareConcatenationParts svc s3Client t paths out.UploadId s).parts)
        (prepareConcatenationParts svc s3Client t paths out.UploadId s).st).2
      with ⟨_, hdlog⟩ | ⟨j, q, e, _, _, hdlog⟩
    · rw [hdlog]
      simp [List.filter_cons, Event.isCompleteMultipartUpload, List.filter_append,
        filter_isComplete_copyEvents, filter_isComplete_deleteEvents]
    · rw [hdlog]
      simp [List.filter_cons, Event.isCompleteMultipartUpload, List.filter_append,
        filter_isComplete_copyEvents, filter_isComplete_deleteEvents]

theorem C4_manifest_is_ordered_parts_witness :
    ["a", "b"].length ≤ 10000 ∧
    (∀ ev ∈ (prepareConcatenationParts scriptedS3 testClient "merged" ["a", "b"]
        (some "upload-1") []).log, ev.err = none) ∧
    (prepareConcatenationParts scriptedS3 testClient "merged" ["a", "b"]
        (some "upload-1") []).parts.map (fun part => part.PartNumber)
      = (List.range ["a", "b"].length).map (fun k => Int.ofNat (k + 1)) :=
  ⟨by decide, by decide,
    (C4_manifest_is_ordered_parts scriptedS3 testClient "merged" ["a", "b"]
      (some "upload-1") [] (by decide) (by decide)).2.2.2.2.1⟩

/-- C1 (as the code has it), over the model store, where a successful
completion creates the target from the copied parts in manifest order: for
every non-empty list of at most 10000 source keys that does not contain the
target key, whenever `ConcatenateFiles` returns nil and its completion call
succeeded, every source key named an object before the call, the target
object exists afterwards with the concatenation of their contents in
source-key order as its content, and no source key exists afterwards. -/
theorem C1_merged_content_and_sources_removed (m : Nat) (etag : List UInt8 → String)
    (s3Client : S3Client) (t : String) (paths : List String) (s : StoreState)
    (_hne : paths ≠ []) (hlen : paths.length ≤ 10000) (htarget : t ∉ paths)
    (hnil : (ConcatenateFiles (modelS3 m etag) s3Client t paths s).err = none)
    (hcomplete : ∀ ev ∈ (ConcatenateFiles (modelS3 m etag) s3Client t paths s).log,
      ev.isCompleteMultipartUpload = true → ev.err = none) :
    ∃ contents : List (List UInt8),
      List.Forall₂ (fun p bytes => s.objects (objectPath s3Client.BucketName p) = some bytes)
        paths contents ∧
      (ConcatenateFiles (modelS3 m etag) s3Client t paths s).st.objects
        (objectPath s3Client.BucketName t) = some contents.flatten ∧
      ∀ p ∈ paths, (ConcatenateFiles (modelS3 m etag) s3Client t paths s).st.objects
        (objectPath s3Client.BucketName p) = none := by
  have hinit : (modelS3 m etag).CreateMultipartUpload (createRequest s3Client t) s
      = (.ok { UploadId := some ("upload-" ++ toString s.next) },
          { objects := s.objects
            uploads := fun k =>
              if k = "upload-" ++ toString s.next then
                some { path := objectPath s3Client.BucketName t, parts := fun _ => none }
              else s.uploads k
            next := s.next + 1 }) := rfl
  generalize hid : "upload-" ++ toString s.next = id at hinit
  generalize hs1 : ({ objects := s.objects
                      uploads := fun k =>
                        if k = id then
                          some { path := objectPath s3Client.BucketName t, parts := fun _ => none }
                        else s.uploads k
                      next := s.next + 1 } : StoreState) = s1 at hinit
  have hobj1 : s1.objects = s.objects := by rw [← hs1]
  have hup1 : s1.uploads id
      = some { path := objectPath s3Client.BucketName t, parts := fun _ => none } := by
    rw [← hs1]
    simp
  have hR := ConcatenateFiles_eq (modelS3 m etag) s3Client t paths s
  rw [hinit] at hR
  simp only at hR
  have hp : prepareConcatenationParts (modelS3 m etag) s3Client t paths (some id) s1
      = prepareLoop (modelS3 m etag) s3Client t (some id) 0 paths [] s1 := by
    simp [prepareConcatenationParts, Nat.not_lt.mpr hlen]
  rw [hp] at hR
  cases hperr : (prepareLoop (modelS3 m etag) s3Client t (some id) 0 paths [] s1).err with
  | some e =>
    rw [hperr] at hR
    rw [hR] at hnil
    simp at hnil
  | none =>
    rw [hperr] at hR
    simp only at hR
    obtain ⟨contents, hall, hpobj, hpup, hparts⟩ :=
      prepareLoop_model m etag s3Client t id paths 0 [] s1 _ hup1 hperr
    rw [List.nil_append] at hparts
    rw [hparts] at hR
    have hcerr : ((modelS3 m etag).CompleteMultipartUpload
        (completeRequest s3Client t (some id) (manifestOf etag 0 contents))
        (prepareLoop (modelS3 m etag) s3Client t (some id) 0 paths [] s1).st).1 = none :=
      hcomplete (Event.completeMultipartUpload
        (completeRequest s3Client t (some id) (manifestOf etag 0 contents)) _)
        (by rw [hR]; simp) rfl
    obtain ⟨contents2, hres, _, hcobj⟩ :=
      modelS3_complete_ok m etag s3Client t id (manifestOf etag 0 contents) _ _ hpup hcerr
    rw [resolveParts_partsAfter] at hres
    have hc2 : contents2 = contents := (Option.some.inj hres).symm
    subst hc2
    obtain ⟨_, hdobj⟩ := DeleteFiles_model m etag s3Client paths
      ((modelS3 m etag).CompleteMultipartUpload
        (completeRequest s3Client t (some id) (manifestOf etag 0 contents2))
        (prepareLoop (modelS3 m etag) s3Client t (some id) 0 paths [] s1).st).2
    refine ⟨contents2, ?_, ?_, ?_⟩
    · rw [hobj1] at hall
      exact hall
    · rw [hR]
      show (DeleteFiles (modelS3 m etag) s3Client paths _).st.objects _ = _
      rw [hdobj, hcobj]
      have hnot : objectPath s3Client.BucketName t
          ∉ paths.map (objectPath s3Client.BucketName) := by
        intro hmem
        obtain ⟨q, hq, hqt⟩ := List.mem_map.mp hmem
        exact htarget (objectPath_injective s3Client.BucketName q t hqt ▸ hq)
      simp [hnot]
    · intro q hq
      rw [hR]
      show (DeleteFiles (modelS3 m etag) s3Client paths _).st.objects _ = _
      rw [hdobj]
      simp [List.mem_map_of_mem _ hq]

theorem C1_merged_content_and_sources_removed_witness :
    ["A", "B"] ≠ [] ∧ ["A", "B"].length ≤ 10000 ∧ "merged" ∉ ["A", "B"] ∧
    (ConcatenateFiles (modelS3 5 lengthTag) testClient "merged" ["A", "B"] twoObjects).err
      = none ∧
    (∀ ev ∈ (ConcatenateFiles (modelS3 5 lengthTag) testClient "merged" ["A", "B"]
        twoObjects).log, ev.isCompleteMultipartUpload = true → ev.err = none) ∧
    ∃ contents : List (List UInt8),
      List.Forall₂
        (fun p bytes => twoObjects.objects (objectPath testClient.BucketName p) = some bytes)
        ["A", "B"] contents ∧
      (ConcatenateFiles (modelS3 5 lengthTag) testClient "merged" ["A", "B"]
        twoObjects).st.objects (objectPath testClient.BucketName "merged")
        = some contents.flatten ∧
      ∀ p ∈ ["A", "B"], (ConcatenateFiles (modelS3 5 lengthTag) testClient "merged"
        ["A", "B"] twoObjects).st.objects (objectPath testClient.BucketName p) = none :=
  ⟨by decide, by decide, by decide, by decide, by decide,
    C1_merged_content_and_sources_removed 5 lengthTag testClient "merged" ["A", "B"]
      twoObjects (by decide) (by decide) (by decide) (by decide) (by decide)⟩

/-- C1 counterexample, on the model store with a minimum part size of 5.
With the target key `A` among the source keys `A`, `B`, every store call
succeeds and `ConcatenateFiles` returns nil, yet the target does not exist
afterwards: it was deleted with the sources.  And with the source keys `B`,
`B` (one byte each) the store rejects the completion, `ConcatenateFiles`
returns nil all the same, and the target `merged` does not exist. -/
theorem C1_counterexample :
    (["A", "B"] ≠ [] ∧ ["A", "B"].length ≤ 10000 ∧
      (ConcatenateFiles (modelS3 5 lengthTag) testClient "A" ["A", "B"] twoObjects).err
        = none ∧
      (∀ ev ∈ (ConcatenateFiles (modelS3 5 lengthTag) testClient "A" ["A", "B"]
          twoObjects).log, ev.err = none) ∧
      (ConcatenateFiles (modelS3 5 lengthTag) testClient "A" ["A", "B"]
        twoObjects).st.objects (objectPath testClient.BucketName "A") = none) ∧
    (["B", "B"] ≠ [] ∧ ["B", "B"].length ≤ 10000 ∧
      (ConcatenateFiles (modelS3 5 lengthTag) testClient "merged" ["B", "B"] twoObjects).err
        = none ∧
      (ConcatenateFiles (modelS3 5 lengthTag) testClient "merged" ["B", "B"]
        twoObjects).st.objects (objectPath testClient.BucketName "merged") = none) := by
  decide

/-- C2 (the code at the failing input), on the model store with a minimum
part size of 5 and the source keys `B` (one byte) and `A` (five bytes):
initiation and both copies succeed, the store rejects the completion with
`EntityTooSmall`, and `ConcatenateFiles` nevertheless issues the delete-object
calls for `B` and `A` and returns nil; afterwards neither the sources nor the
target exist. -/
theorem C2_completion_error_is_dropped :
    (ConcatenateFiles (modelS3 5 lengthTag) testClient "merged" ["B", "A"] twoObjects).log
      = [Event.createMultipartUpload (createRequest testClient "merged")
          (.ok { UploadId := some "upload-1" }),
        Event.uploadPartCopy (copyRequest testClient "merged" (some "upload-1") 0 "B")
          (.ok { CopyPartResult := { ETag := some "1" } }),
        Event.uploadPartCopy (copyRequest testClient "merged" (some "upload-1") 1 "A")
          (.ok { CopyPartResult := { ETag := some "5" } }),
        Event.completeMultipartUpload
          (completeRequest testClient "merged" (some "upload-1")
            [{ ETag := some "1", PartNumber := 1 }, { ETag := some "5", PartNumber := 2 }])
          (some (storeError "EntityTooSmall")),
        Event.deleteObject (deleteRequest testClient "B") none,
        Event.deleteObject (deleteRequest testClient "A") none] ∧
    (ConcatenateFiles (modelS3 5 lengthTag) testClient "merged" ["B", "A"] twoObjects).err
      = none ∧
    (ConcatenateFiles (modelS3 5 lengthTag) testClient "merged" ["B", "A"]
      twoObjects).st.objects "test/B" = none ∧
    (ConcatenateFiles (modelS3 5 lengthTag) testClient "merged" ["B", "A"]
      twoObjects).st.objects "test/A" = none ∧
    (ConcatenateFiles (modelS3 5 lengthTag) testClient "merged" ["B", "A"]
      twoObjects).st.objects "test/merged" = none := by
  decide

end S3Files
